import Mathlib

/-!
Verification of the reference-guided song generation pipeline of the
amor-soft repository: a shallow embedding of the polling state machine
(src/lib/ai-music.ts), the persistence transitions of the background
generation route (src/app/api/songs/generate/route.ts), the manual retry
route (src/app/api/songs/[id]/retry/route.ts), the tiered reference
retrieval (src/lib/lyrics-processor.ts together with the match_lyrics SQL
function of supabase-schema.sql), the ingestion cleanup pass
(processLyricsCSV), and the lyrics cleanup pass (cleanLyricsResponse in
src/lib/gemini.ts).

External effects (HTTP fetches, the JSON parser, clocks, randomness) are
modelled as explicit oracle parameters; everything the repository computes
itself is translated directly from the source.
-/

namespace AmorSoft

/-! ## Data model: Suno task responses (src/lib/ai-music.ts) -/

/-- One sub-clip of a Suno task response.  The state field is a string in
the wire format; duration is modelled as a natural number (the API sends
integral second counts such as 180). -/
structure Clip where
  clip_id : String
  title : String
  tags : String
  lyrics : String
  image_url : String
  audio_url : String
  video_url : String
  created_at : String
  mv : String
  duration : Nat
  state : String
deriving DecidableEq, Repr

/-- A Suno task-status response.  The data field is an Option: none models
a JSON body whose data field is missing or not an array (the code guards
for exactly this with Array.isArray). -/
structure SunoTaskResponse where
  code : Int
  data : Option (List Clip)
  message : String
deriving DecidableEq, Repr

/-- Outcome of one getTaskStatus call: either a parsed response or a
thrown transport error carrying its message. -/
inductive FetchOutcome where
  | ok (r : SunoTaskResponse)
  | err (msg : String)
deriving DecidableEq, Repr

/-- A polling script assigns to each attempt index the outcome of the
getTaskStatus call made at that attempt. -/
def PollScript := Nat → FetchOutcome

/-! ## Mock-task handling in pollTaskCompletion -/

/-- The canned clip returned for a mock task id (ai-music.ts lines
178-193); now is the value of new Date().toISOString(). -/
def mockClip (taskId now : String) : Clip :=
  { clip_id := taskId.replace "mock_" "clip_"
    title := "Generated Song"
    state := "succeeded"
    audio_url := "https://cdn1.suno.ai/mock-audio-url.mp3"
    video_url := "https://cdn1.suno.ai/mock-video-url.mp4"
    image_url := "https://cdn1.suno.ai/mock-image-url.jpg"
    duration := 180
    tags := "bollywood, hindi, romantic"
    lyrics := "Mock generated lyrics"
    created_at := now
    mv := "chirp-v5" }

/-- The canned successful response for a mock task id. -/
def mockResponse (taskId now : String) : SunoTaskResponse :=
  { code := 200
    data := some [mockClip taskId now]
    message := "Mock task completed successfully" }

/-- The simulated delay, in milliseconds, before a mock task resolves
(the setTimeout of 2000 at ai-music.ts line 173). -/
def mockSimulatedDelayMs : Nat := 2000

/-! ## List-based string primitives (JS string operations) -/

/-- The JS String.prototype.startsWith, computed on character lists. -/
def strHasPrefix (s p : String) : Bool :=
  p.toList.isPrefixOf s.toList

/-- The JS String.prototype.endsWith, computed on character lists. -/
def strHasSuffix (s p : String) : Bool :=
  p.toList.reverse.isPrefixOf s.toList.reverse

/-- Substring containment on character lists. -/
def containsSub (s pat : List Char) : Bool :=
  (List.range (s.length + 1)).any (fun i => pat.isPrefixOf (s.drop i))

/-- Substring containment on strings (the JS String.prototype.includes). -/
def strContains (s pat : String) : Bool :=
  containsSub s.toList pat.toList

/-! ## The polling loop -/

/-- result.data.some(clip and clip.state equals succeeded). -/
def hasCompleted (cs : List Clip) : Bool :=
  cs.any (fun c => c.state == "succeeded")

/-- result.data.some(clip and clip.state equals failed). -/
def hasFailed (cs : List Clip) : Bool :=
  cs.any (fun c => c.state == "failed")

/-- result.data.every(clip state pending or running). -/
def allPending (cs : List Clip) : Bool :=
  cs.all (fun c => c.state == "pending" || c.state == "running")

/-- The for-loop of pollTaskCompletion (ai-music.ts lines 198-265).
attempt is the current attempt index, remaining the attempts left,
lastErr the last caught error message (set by the catch, never cleared).
Returns Sum.inr r when the loop returns a decisive response early, and
Sum.inl lastErr when the attempt budget runs out.  Delays (setTimeout and
the exponential backoff) do not affect the computed result and are not
modelled. -/
def pollLoop (script : PollScript) :
    Nat → Nat → Option String → Option String ⊕ SunoTaskResponse
  | _, 0, lastErr => Sum.inl lastErr
  | attempt, remaining + 1, lastErr =>
    match script attempt with
    | FetchOutcome.err e => pollLoop script (attempt + 1) remaining (some e)
    | FetchOutcome.ok r =>
      if r.code == 202 then
        pollLoop script (attempt + 1) remaining lastErr
      else
        match r.data with
        | none => pollLoop script (attempt + 1) remaining lastErr
        | some cs =>
          if hasCompleted cs || hasFailed cs then Sum.inr r
          else if !(allPending cs) then Sum.inr r
          else pollLoop script (attempt + 1) remaining lastErr

/-- pollTaskCompletion (ai-music.ts lines 161-294).  The mock branch
returns the canned response without consulting the script; otherwise the
loop runs maxAttempts attempts; on fall-through with a recorded error a
code-500 polling-failure response is returned, and with no recorded error
one final getTaskStatus call is made (script maxAttempts) whose thrown
error is also converted to a code-500 response. -/
def pollTaskCompletion (taskId : String) (script : PollScript)
    (maxAttempts : Nat) (now : String) : SunoTaskResponse :=
  if strHasPrefix taskId "mock_" then mockResponse taskId now
  else
    match pollLoop script 0 maxAttempts none with
    | Sum.inr r => r
    | Sum.inl (some e) =>
      { code := 500, data := some [], message := "Polling failed: " ++ e }
    | Sum.inl none =>
      match script maxAttempts with
      | FetchOutcome.ok r => r
      | FetchOutcome.err e =>
        { code := 500, data := some []
          message := "Final status check failed: " ++ e }

/-! ## Persisted song rows and the background completion poller -/

/-- The fields of a songs row touched by the generation pipeline. -/
structure Song where
  id : String
  clerk_user_id : String
  status : String
  error_message : Option String
  task_id : Option String
  clip_id : Option String
  audio_url : Option String
  video_url : Option String
  image_url : Option String
  duration : Option Nat
  completed_at : Option String
deriving DecidableEq, Repr

/-- pollSongCompletion (generate/route.ts lines 193-325): runs
pollTaskCompletion with 15 attempts and applies the resulting response to
the song row, returning the final persisted row.  now is the timestamp
used for completed_at. -/
def pollSongCompletion (song : Song) (taskId : String) (script : PollScript)
    (now : String) : Song :=
  let result := pollTaskCompletion taskId script 15 now
  match result.data with
  | none =>
    if result.code == 500 && strContains result.message "Polling failed" then
      { song with status := "generating"
                  error_message := some ("Song is being generated - Suno API "
                    ++ "experiencing temporary issues. Please check back later.") }
    else
      { song with status := "failed"
                  error_message := some "Invalid response from Suno API" }
  | some cs =>
    match cs.find? (fun c => c.state == "succeeded") with
    | some c =>
      { song with status := "completed"
                  clip_id := some c.clip_id
                  audio_url := some c.audio_url
                  video_url := some c.video_url
                  image_url := some c.image_url
                  duration := if c.duration == 0 then none else some c.duration
                  completed_at := some now
                  error_message := none }
    | none =>
      match cs.find? (fun c => c.state == "failed") with
      | some _ =>
        { song with status := "failed"
                    error_message := some "Song generation failed on Suno API" }
      | none =>
        { song with status := "failed"
                    error_message := some "Song generation timed out" }

/-! ## generateCompleteSong (ai-music.ts lines 296-447) -/

/-- A reference row as returned by findSimilarLyrics. -/
structure RefRow where
  song_name : String
  lyrics_text : String
deriving DecidableEq, Repr

/-- The result record of generateCompleteSong. -/
structure SongGenResult where
  lyrics : String
  title : String
  task_id : Option String
  reference_songs : List String
  error : Option String
deriving DecidableEq, Repr

/-- The fixed fallback lyric substituted when the RAG lyric generation
throws (ai-music.ts lines 371-379). -/
def fallbackLyrics : String :=
  "[Verse]\nप्रेम की ये कहानी सुनाते हैं\nदिल की गहराइयों से आवाज़ लाते हैं\n\n"
    ++ "[Chorus]\nगाते हैं हम ये गाना\nप्रेम का ये दीवाना\nखुशी से भरा है मन\n"
    ++ "सुनो इसे तुम भी एक बार"

/-- Step 1 of generateCompleteSong (lines 328-381): produce the lyrics and
the captured reference names.  findOutcome is the outcome of the
findSimilarLyrics call and genOutcome the outcome of the single
optimizeLyricsPrompt call (optimizeLyricsPrompt itself re-throws errors of
the model call, gemini.ts lines 74-86).  The third component counts how
many text-generation calls were made.  A supplied non-empty custom lyric
skips generation entirely (the JS truthiness check on customLyrics). -/
def generateSongLyricsGen (findOutcome : Except String (List RefRow))
    (genOutcome : Except String String) : String × List String × Nat :=
  match findOutcome with
  | Except.error _ => (fallbackLyrics, [], 0)
  | Except.ok similar =>
    let refs := if similar.length > 0 then similar.map (fun s => s.song_name)
                else []
    match genOutcome with
    | Except.ok l => (l, refs, 1)
    | Except.error _ => (fallbackLyrics, refs, 1)

/-- The customLyrics dispatch at lines 324-329 around the try/catch body
(generateSongLyricsGen). -/
def generateSongLyrics (customLyrics : Option String)
    (findOutcome : Except String (List RefRow))
    (genOutcome : Except String String) : String × List String × Nat :=
  match customLyrics with
  | some l =>
    if l == "" then generateSongLyricsGen findOutcome genOutcome
    else (l, [], 0)
  | none => generateSongLyricsGen findOutcome genOutcome

/-- The Suno create response. -/
structure SunoCreateResponse where
  task_id : String
  message : String
deriving DecidableEq, Repr

/-- The locally synthesized mock task identifier (ai-music.ts lines
434-436); nowMs is Date.now() and rand the random base-36 fragment. -/
def mkMockTaskId (nowMs : Nat) (rand : String) : String :=
  "mock_" ++ toString nowMs ++ "_" ++ rand

/-- generateCompleteSong: lyrics step followed by the music submission
(lines 383-446).  createOutcome is the outcome of the create_music call;
an empty task_id in a successful response is also treated as a failure
(the explicit throw at line 413 lands in the same catch).  Returns the
result record together with the number of text-generation calls made. -/
def generateCompleteSong (title : String) (customLyrics : Option String)
    (findOutcome : Except String (List RefRow))
    (genOutcome : Except String String)
    (createOutcome : Except String SunoCreateResponse)
    (nowMs : Nat) (rand : String) : SongGenResult × Nat :=
  let (lyrics, refs, calls) := generateSongLyrics customLyrics findOutcome genOutcome
  if lyrics == "" then
    ({ lyrics := "", title := title, task_id := none, reference_songs := refs
       error := some "Failed to generate lyrics" }, calls)
  else
    match createOutcome with
    | Except.ok cr =>
      if cr.task_id == "" then
        ({ lyrics := lyrics, title := title
           task_id := some (mkMockTaskId nowMs rand)
           reference_songs := refs, error := none }, calls)
      else
        ({ lyrics := lyrics, title := title, task_id := some cr.task_id
           reference_songs := refs, error := none }, calls)
    | Except.error _ =>
      ({ lyrics := lyrics, title := title
         task_id := some (mkMockTaskId nowMs rand)
         reference_songs := refs, error := none }, calls)

/-! ## The manual retry route (src/app/api/songs/[id]/retry/route.ts) -/

/-- An external call made by a route; distinguishes a status re-query from
a fresh music submission. -/
inductive ExtCall where
  | getStatus (taskId : String)
  | createMusic (prompt : String) (title : String)
deriving DecidableEq, Repr

/-- Outcome of the single status fetch of the retry route (lines 67-93):
an HTTP 202 body, an ok JSON body, or a thrown error (non-2xx responses
are thrown at line 90 and land in the same catch). -/
inductive RetryFetch where
  | notReady (errText : String)
  | okJson (r : SunoTaskResponse)
  | threw (msg : String)
deriving DecidableEq, Repr

/-- The result of the retry route: the persisted song row after the
request, the HTTP status of the route response, and the trace of external
calls made. -/
structure RetryResult where
  song : Song
  httpStatus : Nat
  calls : List ExtCall
deriving DecidableEq, Repr

/-- The still-generating message of the retry route. -/
def msgStillGenerating : String :=
  "Song is still being generated. Please try again later."

/-- The unable-to-check message of the retry route. -/
def msgUnableToCheck : String :=
  "Unable to check song status due to API issues. Please try again later."

/-- Lines 96-195 of the retry route: apply a parsed status response to the
song row; now is the timestamp used for completed_at. -/
def retryApplyResult (song : Song) (r : SunoTaskResponse)
    (calls : List ExtCall) (now : String) : RetryResult :=
  if r.code == 202 then
    { song := { song with
        status := "generating",
        error_message := some msgStillGenerating },
      httpStatus := 200, calls := calls }
  else
    match r.data with
    | some (c :: cs) =>
      match (c :: cs).find? (fun cl => cl.state == "succeeded") with
      | some sc =>
        { song := { song with
            status := "completed",
            clip_id := some sc.clip_id,
            audio_url := some sc.audio_url,
            video_url := some sc.video_url,
            image_url := some sc.image_url,
            duration := if sc.duration == 0 then none else some sc.duration,
            completed_at := some now,
            error_message := none },
          httpStatus := 200, calls := calls }
      | none =>
        match (c :: cs).find? (fun cl => cl.state == "failed") with
        | some _ =>
          { song := { song with
              status := "failed",
              error_message := some "Song generation failed on Suno API" },
            httpStatus := 200, calls := calls }
        | none =>
          { song := { song with
              status := "generating",
              error_message := some msgStillGenerating },
            httpStatus := 200, calls := calls }
    | _ =>
      { song := { song with
          status := "generating",
          error_message := some msgUnableToCheck },
        httpStatus := 200, calls := calls }

/-- POST of the retry route (lines 11-234), for an authenticated user
userId and an existing song row.  The fetch outcome models lines 67-93;
its 202 body is normalized to a code-202 response exactly as the source
does. -/
def retryRoute (song : Song) (userId : String) (fetch : RetryFetch)
    (now : String) : RetryResult :=
  if song.clerk_user_id != userId then
    { song := song, httpStatus := 403, calls := [] }
  else if song.task_id.isNone then
    { song := song, httpStatus := 400, calls := [] }
  else if song.status == "completed" then
    { song := song, httpStatus := 400, calls := [] }
  else
    let tid := song.task_id.getD ""
    let calls := [ExtCall.getStatus tid]
    match fetch with
    | RetryFetch.threw _ =>
      { song := { song with
          status := "generating",
          error_message := some msgUnableToCheck },
        httpStatus := 200, calls := calls }
    | RetryFetch.notReady errText =>
      retryApplyResult song { code := 202, data := some [], message := errText }
        calls now
    | RetryFetch.okJson r => retryApplyResult song r calls now

/-! ## Reference retrieval (lyrics-processor.ts, findSimilarLyrics) -/

/-- One row of the lyrics_index table (the reference corpus); the stored
embedding vector only enters through the similarity oracle below. -/
structure CorpusRow where
  song_name : String
  lyrics_text : String
deriving DecidableEq, Repr

/-- Insertion into a list sorted by descending similarity. -/
def insertBySim (sim : CorpusRow → ℚ) (r : CorpusRow) :
    List CorpusRow → List CorpusRow
  | [] => [r]
  | x :: xs =>
    if sim x ≤ sim r then r :: x :: xs else x :: insertBySim sim r xs

/-- Sort by descending similarity (models ORDER BY embedding distance). -/
def sortBySim (sim : CorpusRow → ℚ) : List CorpusRow → List CorpusRow
  | [] => []
  | x :: xs => insertBySim sim x (sortBySim sim xs)

/-- The match_lyrics SQL function (supabase-schema.sql lines 37-62):
keep rows whose similarity exceeds the threshold, order by similarity
descending, limit to match_count.  sim r stands for
1 - (embedding distance to the query embedding), which the database
computes from the stored float vectors. -/
def matchLyricsRpc (corpus : List CorpusRow) (sim : CorpusRow → ℚ)
    (threshold : ℚ) (count : Nat) : List CorpusRow :=
  (sortBySim sim (corpus.filter (fun r => threshold < sim r))).take count

/-- Character-wise lower casing of a string (JS toLowerCase, ASCII). -/
def lowerStr (s : String) : String :=
  String.mk (s.toList.map Char.toLower)

/-- Leading and trailing whitespace removal on character lists. -/
def trimChars (s : List Char) : List Char :=
  (((s.dropWhile Char.isWhitespace).reverse).dropWhile Char.isWhitespace).reverse

/-- The JS String.prototype.trim. -/
def trimString (s : String) : String :=
  String.mk (trimChars s.toList)

/-- Split a character list at separator characters; every occurrence
separates, so consecutive separators yield empty pieces. -/
def splitOnPAux (p : Char → Bool) : List Char → List Char → List (List Char)
  | [], acc => [acc.reverse]
  | x :: rest, acc =>
    if p x then acc.reverse :: splitOnPAux p rest []
    else splitOnPAux p rest (x :: acc)

/-- Split a string into its newline-separated lines. -/
def splitLines (s : String) : List String :=
  (splitOnPAux (fun c => c == '\n') s.toList []).map String.mk

/-- Split at whitespace characters.  The JS split on a whitespace-run
regex merges adjacent separators; this version instead yields empty
pieces there, which the length-greater-2 keyword filter below removes
just as in the source, so the filtered keyword list is identical. -/
def splitWs (s : String) : List String :=
  (splitOnPAux Char.isWhitespace s.toList []).map String.mk

/-- The fixed stop-word list (lyrics-processor.ts lines 164-203, in
source order including the duplicated who). -/
def stopWords : List String :=
  ["the", "and", "for", "are", "but", "not", "you", "all", "can", "had",
   "her", "was", "one", "our", "out", "day", "get", "has", "him", "his",
   "how", "its", "may", "new", "now", "old", "see", "two", "who", "boy",
   "did", "she", "use", "way", "who", "oil", "sit", "set"]

/-- Keyword extraction (lines 158-204): lower-case the theme, split on
whitespace, keep words longer than two characters that are not stop
words. -/
def extractKeywords (q : String) : List String :=
  (splitWs (lowerStr q)).filter
    (fun w => w.length > 2 && !(stopWords.contains w))

/-- A case-insensitive substring test (the SQL ilike %kw%). -/
def ilike (field kw : String) : Bool :=
  containsSub (lowerStr field).toList (lowerStr kw).toList

/-- The OR-condition of the keyword query (lines 208-219): some keyword
occurs case-insensitively in the entry name or in its text. -/
def rowMatchesKeywords (kws : List String) (r : CorpusRow) : Bool :=
  kws.any (fun k => ilike r.song_name k || ilike r.lyrics_text k)

/-- The keyword-tier query: matching rows, limited to count. -/
def keywordTier (corpus : List CorpusRow) (kws : List String)
    (count : Nat) : List CorpusRow :=
  (corpus.filter (rowMatchesKeywords kws)).take count

/-- The failure oracles of one findSimilarLyrics run: whether the
embedding call succeeded, the similarity each stored row scores against
the query embedding, whether each of the three database queries returned
an error, and whether an unexpected exception reached the outer catch. -/
structure RetrievalOracles where
  embedOk : Bool
  sim : CorpusRow → ℚ
  rpcError : Bool
  textError : Bool
  randomError : Bool
  outerThrow : Bool

/-- The hard-coded fallback list used when the database is empty
(lyrics-processor.ts lines 251-267). -/
def hardcodedFallback : List RefRow :=
  [{ song_name := "Yeh Dosti"
     lyrics_text := "Yeh dosti hum nahin todhenge\nTodhenge dum magar\nTera saath na chhodenge" },
   { song_name := "Haan Jab Tak Hain Jaan"
     lyrics_text := "Haan jab tak hain jaan\nJaane jahaan main naachoongi\nPyar kabhi bhi marta nahin" },
   { song_name := "Koi Haseena"
     lyrics_text := "Koi haseena jab rooth jaati hain toh\nAur bhi haseen ho jaati hain" }]

/-- The final fallback of the outer catch (lines 272-278). -/
def catchFallback : List RefRow :=
  [{ song_name := "Classic Hindi Song"
     lyrics_text := "Dil mein basi hai teri yaad\nSapno mein aata hai tera chehra\nMohabbat ki yeh kahani" }]

/-- One tier of the fallback chain: a tier with a non-empty row list is
returned (projected to reference rows); an empty one falls through. -/
def pickTier (tier : List CorpusRow) (next : List RefRow) : List RefRow :=
  if tier.length > 0 then
    tier.map (fun r => { song_name := r.song_name, lyrics_text := r.lyrics_text })
  else next

/-- findSimilarLyrics (lyrics-processor.ts lines 121-280): the four-tier
fallback chain.  Each tier is used only when it produced no error and a
non-empty row list; otherwise control falls to the next tier. -/
def findSimilarLyrics (queryText : String) (matchCount : Nat)
    (threshold : ℚ) (corpus : List CorpusRow) (o : RetrievalOracles) :
    List RefRow :=
  if o.outerThrow then catchFallback
  else
    let tier1 :=
      if o.embedOk && !o.rpcError then
        matchLyricsRpc corpus o.sim threshold matchCount
      else []
    let tier2 :=
      if (extractKeywords queryText).length > 0 && !o.textError then
        keywordTier corpus (extractKeywords queryText) matchCount
      else []
    let tier3 := if !o.randomError then corpus.take matchCount else []
    pickTier tier1 (pickTier tier2 (pickTier tier3 hardcodedFallback))

/-! ## Ingestion cleanup (lyrics-processor.ts, processLyricsCSV) -/

/-- The stray-index-line test (the /^\d+$/ regex at line 66). -/
def isAllDigits (s : String) : Bool :=
  s.length > 0 && s.toList.all Char.isDigit

/-- Lines 64-69: drop the literal Lyrics marker elements and all-digit
elements, join with newlines, trim. -/
def cleanListLyrics (arr : List String) : String :=
  trimString (String.intercalate "\n"
    (arr.filter (fun l => l != "Lyrics" && !(isAllDigits l))))

/-- The single-quote character of the Python list wrapping. -/
def singleQuote : Char := Char.ofNat 39

/-- The opening bracket-quote pair of a Python list literal. -/
def listOpen : String := String.mk ['[', singleQuote]

/-- The closing quote-bracket pair of a Python list literal. -/
def listClose : String := String.mk [singleQuote, ']']

/-- Lines 55-76 of processLyricsCSV: the Python-list cleanup.  parsed is
the outcome of the JSON.parse call on the quote-normalized text (an
external library call): none models a parse failure, in which case the
original text is used unchanged.  Texts without the list wrapping are
also used unchanged. -/
def ingestClean (raw : String) (parsed : Option (List String)) : String :=
  if strHasPrefix raw listOpen && strHasSuffix raw listClose then
    match parsed with
    | some arr => cleanListLyrics arr
    | none => raw
  else raw

/-- Lines 46-109: the per-song ingestion decision.  Returns the inserted
(song_name, lyrics_text) pair, or none when the row is skipped (missing
title or lyrics, or cleaned text shorter than ten characters). -/
def ingestSong (songTitle hindiLyrics : String)
    (parsed : Option (List String)) : Option (String × String) :=
  if songTitle == "" || hindiLyrics == "" then none
  else
    let c := ingestClean hindiLyrics parsed
    if c == "" || c.length < 10 then none
    else some (songTitle, c)

/-! ## Lyrics cleanup (gemini.ts, cleanLyricsResponse)

The cleanup pass is embedded over character lists with the exact match
semantics of the JS regexes it uses: the case-insensitive marker search,
the two global star-delimited replacements, the ten end-anchored literal
removals, and the lazy last-section match. -/

/-- Character-wise lower casing on lists. -/
def lowerL (s : List Char) : List Char := s.map Char.toLower

/-- The five recognized section-marker openings of the search regex at
gemini.ts line 93, lower-cased. -/
def markers : List (List Char) :=
  ["[verse".toList, "[chorus".toList, "[bridge".toList, "[intro".toList,
   "[outro".toList]

/-- Does a recognized marker open at the head of s (case-insensitive)? -/
def markerAt (s : List Char) : Bool :=
  markers.any (fun m => m.isPrefixOf (lowerL s))

/-- Index of the first position where a recognized marker opens (the JS
String.prototype.search of the marker regex). -/
def findMarker : List Char → Option Nat
  | [] => none
  | c :: rest =>
    if markerAt (c :: rest) then some 0
    else (findMarker rest).map (fun i => i + 1)

/-- A match of the bold regex (two stars, a star-free run, two stars)
starting at the head of s; returns the remainder after the match.  After
dropping the star-free run the match succeeds exactly when two stars
follow. -/
def boldMatch : List Char → Option (List Char)
  | c1 :: c2 :: rest =>
    if c1 == '*' && c2 == '*' then
      match rest.dropWhile (fun c => c != '*') with
      | d1 :: d2 :: rest2 =>
        if d1 == '*' && d2 == '*' then some rest2 else none
      | _ => none
    else none
  | _ => none

/-- The global bold replacement: scan left to right, delete each
non-overlapping match, continue after it.  The fuel argument bounds the
recursion by the input length. -/
def replaceBoldGo : Nat → List Char → List Char
  | 0, s => s
  | _ + 1, [] => []
  | fuel + 1, c :: rest =>
    match boldMatch (c :: rest) with
    | some rest2 => replaceBoldGo fuel rest2
    | none => c :: replaceBoldGo fuel rest

/-- cleaned.replace of the bold pattern with the global flag. -/
def replaceBold (s : List Char) : List Char := replaceBoldGo s.length s

/-- A match of the italic regex (star, star-free run, star) at the head
of s; returns the remainder after the match. -/
def italicMatch : List Char → Option (List Char)
  | c1 :: rest =>
    if c1 == '*' then
      match rest.dropWhile (fun c => c != '*') with
      | d1 :: rest2 => if d1 == '*' then some rest2 else none
      | _ => none
    else none
  | _ => none

/-- The global italic replacement. -/
def replaceItalicGo : Nat → List Char → List Char
  | 0, s => s
  | _ + 1, [] => []
  | fuel + 1, c :: rest =>
    match italicMatch (c :: rest) with
    | some rest2 => replaceItalicGo fuel rest2
    | none => c :: replaceItalicGo fuel rest

/-- cleaned.replace of the italic pattern with the global flag. -/
def replaceItalic (s : List Char) : List Char := replaceItalicGo s.length s

/-- Case-insensitive literal prefix test. -/
def prefixAtCI (pat s : List Char) : Bool :=
  (lowerL pat).isPrefixOf (lowerL s)

/-- First index of a case-insensitive occurrence of pat in s. -/
def findSubAux (pat : List Char) : List Char → Option Nat
  | [] => if pat.isEmpty then some 0 else none
  | c :: rest =>
    if prefixAtCI pat (c :: rest) then some 0
    else (findSubAux pat rest).map (fun i => i + 1)

/-- One end-anchored removal: each forbidden pattern is a literal
followed by a match-anything run anchored at the end of the text, so the
replacement keeps exactly the text before the first case-insensitive
occurrence of the literal (and the whole text when the literal does not
occur). -/
def removeTrail (pat : List Char) : List Char → List Char
  | [] => []
  | c :: rest =>
    if prefixAtCI pat (c :: rest) then []
    else c :: removeTrail pat rest

/-- The ten literal heads of the end-anchored unwanted patterns
(gemini.ts lines 102-111, in application order). -/
def forbiddenPhrases : List (List Char) :=
  ["I hope these lyrics".toList, "These lyrics capture".toList,
   "The song".toList, "Style Elements:".toList, "Explanation".toList,
   "Translation".toList, "Meaning".toList, "Note:".toList,
   "Here are".toList, "This song".toList]

/-- The for-loop over the unwanted patterns (bold and italic already
applied separately before these). -/
def applyRemovals (s : List Char) : List Char :=
  forbiddenPhrases.foldl (fun acc p => removeTrail p acc) s

/-- The four section words of the last-section regex at gemini.ts lines
119-121 (this one has no Intro alternative). -/
def sectionWords : List (List Char) :=
  ["verse".toList, "chorus".toList, "bridge".toList, "outro".toList]

/-- Does a last-section group open at the head of s? -/
def headSection : List Char → Bool
  | [] => false
  | c :: rest =>
    c == '[' && sectionWords.any (fun w => w.isPrefixOf (lowerL rest))

/-- The bracketed core of a last-section group at the head of s: the
opening bracket, the maximal bracket-free run, and the closing bracket;
returns the core and the remainder, or none when no closing bracket
follows. -/
def groupCore : List Char → Option (List Char × List Char)
  | [] => none
  | c :: rest =>
    if headSection (c :: rest) then
      match rest.dropWhile (fun x => x != ']') with
      | ']' :: r2 =>
        some (c :: (rest.takeWhile (fun x => x != ']') ++ [']']), r2)
      | _ => none
    else none

/-- The lazy-extension boundary: end of text, or a blank line followed by
an ASCII letter (the [A-Z] class under the ignore-case flag). -/
def isBoundary : List Char → Bool
  | [] => true
  | '\n' :: '\n' :: c :: _ => c.isAlpha
  | _ => false

/-- The lazy match-anything run: consume as little as possible until a
boundary. -/
def lazyExt : List Char → List Char
  | [] => []
  | c :: rest => if isBoundary (c :: rest) then [] else c :: lazyExt rest

/-- The first (leftmost) match group of the last-section regex. -/
def findSectionMatch : List Char → Option (List Char)
  | [] => none
  | c :: rest =>
    match groupCore (c :: rest) with
    | some (core, r2) => some (core ++ lazyExt r2)
    | none => findSectionMatch rest

/-- All start indices of exact occurrences of pat in s. -/
def occurrencesOf (pat s : List Char) : List Nat :=
  (List.range (s.length + 1)).filter (fun i => pat.isPrefixOf (s.drop i))

/-- The JS String.prototype.lastIndexOf. -/
def lastOcc (pat s : List Char) : Option Nat := (occurrencesOf pat s).getLast?

/-- Lines 118-126: truncate after the last occurrence of the first
last-section match group. -/
def lastSectionCut (s : List Char) : List Char :=
  match findSectionMatch s with
  | none => s
  | some g =>
    match lastOcc g s with
    | some i => s.take (i + g.length)
    | none => s

/-- cleanLyricsResponse (gemini.ts lines 89-129): trim, cut the preamble
before the first recognized marker, strip bold and italic segments,
apply the ten end-anchored removals, truncate after the last section,
trim again. -/
def cleanLyricsResponse (lyrics : List Char) : List Char :=
  let c0 := trimChars lyrics
  let c1 :=
    match findMarker c0 with
    | some i => c0.drop i
    | none => c0
  let c2 := replaceItalic (replaceBold c1)
  let c3 := applyRemovals c2
  let c4 := lastSectionCut c3
  trimChars c4

/-- The cleaned text has no preamble: if it contains a recognized section
marker at all, the first one sits at its very start. -/
def noPreamble (s : List Char) : Bool :=
  match findMarker s with
  | some i => i == 0
  | none => true

/-- The cleaned text contains none of the forbidden phrases. -/
def noForbidden (s : List Char) : Bool :=
  forbiddenPhrases.all (fun p => (findSubAux p s).isNone)

/-! ## Helper lemmas about the polling loop -/

/-- When every remaining attempt throws, the loop falls through with some
recorded error. -/
lemma pollLoop_allErr (script : PollScript) :
    ∀ (n a : Nat) (e0 : String),
      (∀ i, i < n → ∃ e, script (a + i) = FetchOutcome.err e) →
      ∃ e, pollLoop script a n (some e0) = Sum.inl (some e) := by
  intro n
  induction n with
  | zero => intro a e0 _; exact ⟨e0, rfl⟩
  | succ n ih =>
    intro a e0 h
    obtain ⟨e1, he1⟩ := h 0 (Nat.succ_pos n)
    rw [Nat.add_zero] at he1
    have step : pollLoop script a (n + 1) (some e0)
        = pollLoop script (a + 1) n (some e1) := by
      simp [pollLoop, he1]
    rw [step]
    exact ih (a + 1) e1 (fun i hi => by
      have := h (i + 1) (Nat.succ_lt_succ hi)
      simpa [Nat.add_comm, Nat.add_assoc, Nat.add_left_comm] using this)

/-- A task whose every poll attempt throws resolves to the code-500
polling-failure response. -/
lemma pollTaskCompletion_allErr (taskId : String) (script : PollScript)
    (now : String)
    (hm : strHasPrefix taskId "mock_" = false)
    (h : ∀ i, i < 15 → ∃ e, script i = FetchOutcome.err e) :
    ∃ e, pollTaskCompletion taskId script 15 now =
      { code := 500, data := some [], message := "Polling failed: " ++ e } := by
  obtain ⟨e0, he0⟩ := h 0 (by norm_num)
  have step : pollLoop script 0 15 none = pollLoop script 1 14 (some e0) := by
    simp [pollLoop, he0]
  obtain ⟨e, he⟩ := pollLoop_allErr script 14 1 e0 (fun i hi => by
    have := h (1 + i) (by omega)
    simpa using this)
  exact ⟨e, by simp [pollTaskCompletion, hm, step, he]⟩

/-- Claim C1 (corrected): when polling exhausts its attempt budget on
repeated transport errors, the persisted job status ends failed with the
fixed non-empty message about timing out (not a message containing the
phrase Polling failed), so the job is not left in a non-terminal
state. -/
theorem claim1_prop (song : Song) (taskId : String) (script : PollScript)
    (now : String)
    (hm : strHasPrefix taskId "mock_" = false)
    (h : ∀ i, i < 15 → ∃ e, script i = FetchOutcome.err e) :
    (pollSongCompletion song taskId script now).status = "failed" ∧
    (pollSongCompletion song taskId script now).error_message
      = some "Song generation timed out" := by
  obtain ⟨e, he⟩ := pollTaskCompletion_allErr taskId script now hm h
  unfold pollSongCompletion
  rw [he]
  exact ⟨rfl, rfl⟩

/-- Witness for claim C1: a concrete job whose every poll attempt throws. -/
theorem claim1_witness :
    (pollSongCompletion
      { id := "s1", clerk_user_id := "u1", status := "generating",
        error_message := none, task_id := some "task1", clip_id := none,
        audio_url := none, video_url := none, image_url := none,
        duration := none, completed_at := none }
      "task1" (fun _ => FetchOutcome.err "network down") "T").status
        = "failed" ∧
    (pollSongCompletion
      { id := "s1", clerk_user_id := "u1", status := "generating",
        error_message := none, task_id := some "task1", clip_id := none,
        audio_url := none, video_url := none, image_url := none,
        duration := none, completed_at := none }
      "task1" (fun _ => FetchOutcome.err "network down") "T").error_message
        = some "Song generation timed out" :=
  claim1_prop _ "task1" _ "T" (by decide)
    (fun i _ => ⟨"network down", rfl⟩)

/-- Counterexample for claim C1 as stated: with every attempt throwing,
the persisted error message is the fixed timeout message, which does not
contain the phrase Polling failed. -/
theorem claim1_counterexample :
    (pollSongCompletion
      { id := "s1", clerk_user_id := "u1", status := "generating",
        error_message := none, task_id := some "task1", clip_id := none,
        audio_url := none, video_url := none, image_url := none,
        duration := none, completed_at := none }
      "task1" (fun _ => FetchOutcome.err "network down") "T").error_message
        = some "Song generation timed out" ∧
    strContains "Song generation timed out" "Polling failed" = false := by
  constructor
  · decide
  · decide

/-- A concatenation starts with its first part. -/
lemma strHasPrefix_append (p t : String) : strHasPrefix (p ++ t) p = true := by
  have h : p.toList <+: (p ++ t).toList := by
    have hd : (p ++ t).toList = p.toList ++ t.toList := by
      simp [String.toList]
    rw [hd]
    exact List.prefix_append _ _
  simp only [strHasPrefix, List.isPrefixOf_iff_prefix]
  exact h

/-- Claim C10 (corrected): pollTaskCompletion is a total function of the
outcome script — every transport failure is caught and a response value
is always returned.  When the loop exhausts its budget with a recorded
error, the result is code 500 with a message beginning Polling failed;
when it exhausts with no recorded error, one extra status call is made:
its thrown error yields code 500 with a message beginning Final status
check failed, but its successful response is returned as-is, so an
exhausted budget alone does not force a code-500 result. -/
theorem claim10_prop (taskId : String) (script : PollScript) (now : String)
    (hm : strHasPrefix taskId "mock_" = false) :
    (∀ e, pollLoop script 0 15 none = Sum.inl (some e) →
      pollTaskCompletion taskId script 15 now =
        { code := 500, data := some [], message := "Polling failed: " ++ e } ∧
      strHasPrefix ("Polling failed: " ++ e) "Polling failed: " = true) ∧
    (pollLoop script 0 15 none = Sum.inl none →
      (∀ e, script 15 = FetchOutcome.err e →
        pollTaskCompletion taskId script 15 now =
          { code := 500, data := some [],
            message := "Final status check failed: " ++ e } ∧
        strHasPrefix ("Final status check failed: " ++ e)
          "Final status check failed: " = true) ∧
      (∀ r, script 15 = FetchOutcome.ok r →
        pollTaskCompletion taskId script 15 now = r)) ∧
    (∀ r, pollLoop script 0 15 none = Sum.inr r →
      pollTaskCompletion taskId script 15 now = r) := by
  have hpre := strHasPrefix_append
  refine ⟨?_, ?_, ?_⟩
  · intro e he
    refine ⟨?_, hpre _ _⟩
    simp [pollTaskCompletion, hm, he]
  · intro hnone
    refine ⟨fun e he => ⟨?_, hpre _ _⟩, fun r hr => ?_⟩
    · simp [pollTaskCompletion, hm, hnone, he]
    · simp [pollTaskCompletion, hm, hnone, hr]
  · intro r hr
    simp [pollTaskCompletion, hm, hr]

/-- Witness for claim C10: an all-throwing script lands in the
polling-failed case of the characterization. -/
theorem claim10_witness :
    pollTaskCompletion "task1" (fun _ => FetchOutcome.err "boom") 15 "T" =
      { code := 500, data := some [],
        message := "Polling failed: " ++ "boom" } ∧
    strHasPrefix ("Polling failed: " ++ "boom") "Polling failed: " = true :=
  (claim10_prop "task1" (fun _ => FetchOutcome.err "boom") "T"
    (by decide)).1 "boom" (by decide)

/-- Counterexample for claim C10 as stated: a script of fifteen 202
not-ready responses exhausts the attempt budget, yet the final extra
status call succeeds and its 202 response is returned unchanged — the
result has code 202, not 500, and its message begins with neither error
prefix. -/
theorem claim10_counterexample :
    (pollTaskCompletion "task1"
      (fun _ => FetchOutcome.ok
        { code := 202, data := some [], message := "Task not ready, please wait" })
      15 "T").code = 202 ∧
    strHasPrefix
      (pollTaskCompletion "task1"
        (fun _ => FetchOutcome.ok
          { code := 202, data := some [], message := "Task not ready, please wait" })
        15 "T").message "Polling failed: " = false ∧
    strHasPrefix
      (pollTaskCompletion "task1"
        (fun _ => FetchOutcome.ok
          { code := 202, data := some [], message := "Task not ready, please wait" })
        15 "T").message "Final status check failed: " = false := by
  refine ⟨?_, ?_, ?_⟩ <;> decide

/-- Claim C4 (confirmed): when the audio-creation call throws, submission
returns the locally synthesized mock identifier instead of failing the
job, and polling any identifier with the mock prefix ignores the outcome
script entirely and resolves to the canned succeeded result with the
fixed placeholder URLs and duration 180, after the fixed simulated
delay. -/
theorem claim4_prop (title : String) (customLyrics : Option String)
    (findO : Except String (List RefRow)) (genO : Except String String)
    (e : String) (nowMs : Nat) (rand now : String)
    (hlyr : (generateSongLyrics customLyrics findO genO).1 ≠ "") :
    (generateCompleteSong title customLyrics findO genO (Except.error e)
        nowMs rand).1.task_id = some (mkMockTaskId nowMs rand) ∧
    (generateCompleteSong title customLyrics findO genO (Except.error e)
        nowMs rand).1.error = none ∧
    strHasPrefix (mkMockTaskId nowMs rand) "mock_" = true ∧
    (∀ (tid : String) (script : PollScript) (maxAttempts : Nat),
      strHasPrefix tid "mock_" = true →
      pollTaskCompletion tid script maxAttempts now = mockResponse tid now) ∧
    (mockResponse (mkMockTaskId nowMs rand) now).data
      = some [mockClip (mkMockTaskId nowMs rand) now] ∧
    (mockClip (mkMockTaskId nowMs rand) now).state = "succeeded" ∧
    (mockClip (mkMockTaskId nowMs rand) now).audio_url
      = "https://cdn1.suno.ai/mock-audio-url.mp3" ∧
    (mockClip (mkMockTaskId nowMs rand) now).video_url
      = "https://cdn1.suno.ai/mock-video-url.mp4" ∧
    (mockClip (mkMockTaskId nowMs rand) now).image_url
      = "https://cdn1.suno.ai/mock-image-url.jpg" ∧
    (mockClip (mkMockTaskId nowMs rand) now).duration = 180 ∧
    mockSimulatedDelayMs = 2000 := by
  rcases hgen : generateSongLyrics customLyrics findO genO with ⟨l, refs, calls⟩
  rw [hgen] at hlyr
  replace hlyr : l ≠ "" := by simpa using hlyr
  have hle : (l == "") = false := beq_eq_false_iff_ne.mpr hlyr
  have hmk : strHasPrefix (mkMockTaskId nowMs rand) "mock_" = true := by
    have hassoc : mkMockTaskId nowMs rand
        = "mock_" ++ (toString nowMs ++ "_" ++ rand) := by
      simp [mkMockTaskId, String.append_assoc]
    rw [hassoc]
    exact strHasPrefix_append _ _
  refine ⟨?_, ?_, hmk, ?_, rfl, rfl, rfl, rfl, rfl, rfl, rfl⟩
  · simp [generateCompleteSong, hgen, hle]
  · simp [generateCompleteSong, hgen, hle]
  · intro tid script maxAttempts htid
    simp [pollTaskCompletion, htid]

/-- Witness for claim C4: a concrete run whose audio-creation call
throws. -/
theorem claim4_witness :
    (generateCompleteSong "T" none (Except.ok []) (Except.ok "[Verse] la")
        (Except.error "net down") 5 "abc123xyz").1.task_id
      = some (mkMockTaskId 5 "abc123xyz") ∧
    (generateCompleteSong "T" none (Except.ok []) (Except.ok "[Verse] la")
        (Except.error "net down") 5 "abc123xyz").1.error = none ∧
    strHasPrefix (mkMockTaskId 5 "abc123xyz") "mock_" = true ∧
    (mockClip (mkMockTaskId 5 "abc123xyz") "2020-01-01").duration = 180 := by
  have h := claim4_prop "T" none (Except.ok []) (Except.ok "[Verse] la")
    "net down" 5 "abc123xyz" "2020-01-01" (by decide)
  exact ⟨h.1, h.2.1, h.2.2.1, h.2.2.2.2.2.2.2.2.2.1⟩

/-- After any number of not-ready 202 responses, a decisive response with
a succeeded or failed clip is returned by the loop, provided it arrives
within the attempt budget. -/
lemma pollLoop_reaches (script : PollScript) :
    ∀ (k a rem : Nat) (le : Option String) (r : SunoTaskResponse)
      (cs : List Clip),
      (∀ i, i < k → ∃ m d, script (a + i) = FetchOutcome.ok
        { code := 202, data := d, message := m }) →
      k < rem →
      script (a + k) = FetchOutcome.ok r →
      (r.code == 202) = false →
      r.data = some cs →
      (hasCompleted cs || hasFailed cs) = true →
      pollLoop script a rem le = Sum.inr r := by
  intro k
  induction k with
  | zero =>
    intro a rem le r cs _ hrem hr hcode hdata hcf
    obtain ⟨rem2, rfl⟩ : ∃ rem2, rem = rem2 + 1 := ⟨rem - 1, by omega⟩
    rw [Nat.add_zero] at hr
    simp [pollLoop, hr, hcode, hdata, hcf]
  | succ k ih =>
    intro a rem le r cs h202 hrem hr hcode hdata hcf
    obtain ⟨rem2, rfl⟩ : ∃ rem2, rem = rem2 + 1 := ⟨rem - 1, by omega⟩
    obtain ⟨m, d, h0⟩ := h202 0 (Nat.succ_pos k)
    rw [Nat.add_zero] at h0
    have step : pollLoop script a (rem2 + 1) le
        = pollLoop script (a + 1) rem2 le := by
      simp [pollLoop, h0]
    rw [step]
    refine ih (a + 1) rem2 le r cs (fun i hi => ?_) (by omega) ?_ hcode hdata hcf
    · have := h202 (i + 1) (Nat.succ_lt_succ hi)
      simpa [Nat.add_comm, Nat.add_assoc, Nat.add_left_comm] using this
    · have : a + 1 + k = a + (k + 1) := by omega
      rw [this]
      exact hr

/-- Claim C7 (confirmed): a polling response whose clip array holds a
succeeded clip, arriving after any number of not-ready 202 responses
within the attempt budget, completes the job: the first succeeded clip
is persisted (URLs and duration), completed_at is set, and the error
message is cleared. -/
theorem claim7_prop (song : Song) (taskId : String) (script : PollScript)
    (now : String) (k : Nat) (r : SunoTaskResponse) (cs : List Clip) (c : Clip)
    (hm : strHasPrefix taskId "mock_" = false)
    (h202 : ∀ i, i < k → ∃ m d, script i = FetchOutcome.ok
      { code := 202, data := d, message := m })
    (hk : k < 15)
    (hr : script k = FetchOutcome.ok r)
    (hcode : (r.code == 202) = false)
    (hdata : r.data = some cs)
    (hfind : cs.find? (fun cl => cl.state == "succeeded") = some c) :
    pollSongCompletion song taskId script now =
      { song with
        status := "completed", clip_id := some c.clip_id,
        audio_url := some c.audio_url, video_url := some c.video_url,
        image_url := some c.image_url,
        duration := if c.duration == 0 then none else some c.duration,
        completed_at := some now, error_message := none } := by
  have hc : hasCompleted cs = true := by
    have hmem := List.mem_of_find?_eq_some hfind
    have hp := List.find?_some hfind
    simp only [hasCompleted, List.any_eq_true]
    exact ⟨c, hmem, hp⟩
  have hcf : (hasCompleted cs || hasFailed cs) = true := by simp [hc]
  have hloop : pollLoop script 0 15 none = Sum.inr r := by
    refine pollLoop_reaches script k 0 15 none r cs ?_ hk ?_ hcode hdata hcf
    · simpa using h202
    · simpa using hr
  have hpoll : pollTaskCompletion taskId script 15 now = r := by
    simp [pollTaskCompletion, hm, hloop]
  simp [pollSongCompletion, hpoll, hdata, hfind]

/-- Witness for claim C7: three not-ready responses followed by a
succeeded clip complete the job with that clip persisted. -/
theorem claim7_witness :
    pollSongCompletion
      { id := "s1", clerk_user_id := "u1", status := "generating",
        error_message := some "old", task_id := some "task1",
        clip_id := none, audio_url := none, video_url := none,
        image_url := none, duration := none, completed_at := none }
      "task1"
      (fun i => if i < 3 then
        FetchOutcome.ok { code := 202, data := some [], message := "wait" }
      else
        FetchOutcome.ok {
          code := 200,
          data := some [{
            clip_id := "clip9", title := "t", tags := "tg",
            lyrics := "ly", image_url := "img", audio_url := "aud",
            video_url := "vid", created_at := "cr", mv := "chirp-v5",
            duration := 180, state := "succeeded" }],
          message := "ok" }) "T" =
      { id := "s1", clerk_user_id := "u1", status := "completed",
        error_message := none, task_id := some "task1",
        clip_id := some "clip9", audio_url := some "aud",
        video_url := some "vid", image_url := some "img",
        duration := some 180, completed_at := some "T" } := by
  have h := claim7_prop
    { id := "s1", clerk_user_id := "u1", status := "generating",
      error_message := some "old", task_id := some "task1",
      clip_id := none, audio_url := none, video_url := none,
      image_url := none, duration := none, completed_at := none }
    "task1"
    (fun i => if i < 3 then
      FetchOutcome.ok { code := 202, data := some [], message := "wait" }
    else
      FetchOutcome.ok {
        code := 200,
        data := some [{
          clip_id := "clip9", title := "t", tags := "tg",
          lyrics := "ly", image_url := "img", audio_url := "aud",
          video_url := "vid", created_at := "cr", mv := "chirp-v5",
          duration := 180, state := "succeeded" }],
        message := "ok" }) "T" 3
    { code := 200,
      data := some [{
        clip_id := "clip9", title := "t", tags := "tg",
        lyrics := "ly", image_url := "img", audio_url := "aud",
        video_url := "vid", created_at := "cr", mv := "chirp-v5",
        duration := 180, state := "succeeded" }],
      message := "ok" }
    [{ clip_id := "clip9", title := "t", tags := "tg",
       lyrics := "ly", image_url := "img", audio_url := "aud",
       video_url := "vid", created_at := "cr", mv := "chirp-v5",
       duration := 180, state := "succeeded" }]
    { clip_id := "clip9", title := "t", tags := "tg",
      lyrics := "ly", image_url := "img", audio_url := "aud",
      video_url := "vid", created_at := "cr", mv := "chirp-v5",
      duration := 180, state := "succeeded" }
    (by decide)
    (fun i hi => ⟨"wait", some [], by simp [hi]⟩)
    (by norm_num)
    (by norm_num)
    (by decide)
    (by decide)
    (by decide)
  simpa using h

/-- Claim C8 (confirmed): when the lyric-generation call throws and no
custom lyrics were supplied, the orchestration makes exactly one
generation attempt (and never more than one on any input), substitutes
the fixed non-empty fallback lyric, and the job proceeds: no error is
recorded and a task identifier is always produced. -/
theorem claim8_prop (similar : List RefRow) (e title : String)
    (createO : Except String SunoCreateResponse) (nowMs : Nat)
    (rand : String) :
    (generateSongLyrics none (Except.ok similar) (Except.error e)).1
      = fallbackLyrics ∧
    (fallbackLyrics == "") = false ∧
    (generateSongLyrics none (Except.ok similar) (Except.error e)).2.2 = 1 ∧
    (∀ (cl : Option String) (fo : Except String (List RefRow))
       (go : Except String String), (generateSongLyrics cl fo go).2.2 ≤ 1) ∧
    (generateCompleteSong title none (Except.ok similar) (Except.error e)
        createO nowMs rand).1.error = none ∧
    ((generateCompleteSong title none (Except.ok similar) (Except.error e)
        createO nowMs rand).1.task_id).isSome = true := by
  have hfb : (fallbackLyrics == "") = false := by decide
  refine ⟨?_, hfb, ?_, ?_, ?_, ?_⟩
  · simp [generateSongLyrics, generateSongLyricsGen]
  · simp [generateSongLyrics, generateSongLyricsGen]
  · intro cl fo go
    rcases cl with _ | l
    · rcases fo with _ | s
      · simp [generateSongLyrics, generateSongLyricsGen]
      · rcases go with _ | g <;> simp [generateSongLyrics, generateSongLyricsGen]
    · by_cases hl : (l == "") = true
      · rcases fo with _ | s
        · simp [generateSongLyrics, generateSongLyricsGen, hl]
        · rcases go with _ | g <;>
            simp [generateSongLyrics, generateSongLyricsGen, hl]
      · simp [generateSongLyrics, eq_false_of_ne_true hl]
  · have hg : generateSongLyrics none (Except.ok similar) (Except.error e)
        = (fallbackLyrics, (if similar.length > 0
            then similar.map (fun s => s.song_name) else []), 1) := by
      simp [generateSongLyrics, generateSongLyricsGen]
    rcases createO with cerr | cr
    · simp [generateCompleteSong, hg, hfb]
    · by_cases ht : (cr.task_id == "") = true <;>
        simp [generateCompleteSong, hg, hfb, ht]
  · have hg : generateSongLyrics none (Except.ok similar) (Except.error e)
        = (fallbackLyrics, (if similar.length > 0
            then similar.map (fun s => s.song_name) else []), 1) := by
      simp [generateSongLyrics, generateSongLyricsGen]
    rcases createO with cerr | cr
    · simp [generateCompleteSong, hg, hfb]
    · by_cases ht : (cr.task_id == "") = true <;>
        simp [generateCompleteSong, hg, hfb, ht]

/-- Applying a status response never adds external calls. -/
lemma retryApplyResult_calls (song : Song) (r : SunoTaskResponse)
    (calls : List ExtCall) (now : String) :
    (retryApplyResult song r calls now).calls = calls := by
  unfold retryApplyResult
  repeat' split <;> try rfl

/-- Applying a status response sets one of the three pipeline statuses. -/
lemma retryApplyResult_status (song : Song) (r : SunoTaskResponse)
    (calls : List ExtCall) (now : String) :
    (retryApplyResult song r calls now).song.status = "generating" ∨
    (retryApplyResult song r calls now).song.status = "completed" ∨
    (retryApplyResult song r calls now).song.status = "failed" := by
  unfold retryApplyResult
  repeat' split
  all_goals simp

/-- Claim C2 (corrected): the manual retry route never changes a
completed job (the guard rejects it), never submits a new external job
(its only external call is the status re-query), and only ever writes
the statuses generating, completed or failed — but the guard does not
protect failed jobs, so a terminal failed job can be moved back to
generating. -/
theorem claim2_prop (song : Song) (userId : String) (f : RetryFetch)
    (now : String) :
    (song.status = "completed" → (retryRoute song userId f now).song = song) ∧
    (∀ p t, ExtCall.createMusic p t ∉ (retryRoute song userId f now).calls) ∧
    ((retryRoute song userId f now).song.status = song.status ∨
     (retryRoute song userId f now).song.status = "generating" ∨
     (retryRoute song userId f now).song.status = "completed" ∨
     (retryRoute song userId f now).song.status = "failed") := by
  unfold retryRoute
  by_cases h1 : (song.clerk_user_id != userId) = true
  · simp [h1]
  · rw [eq_false_of_ne_true h1]
    by_cases h2 : song.task_id.isNone = true
    · simp [h2]
    · rw [eq_false_of_ne_true h2]
      by_cases h3 : (song.status == "completed") = true
      · simp [h3]
      · rw [eq_false_of_ne_true h3]
        have hnc : ¬ song.status = "completed" := by
          simpa using h3
        rcases f with errText | r | msg <;>
          simp [hnc, retryApplyResult_calls, retryApplyResult_status]

/-- Witness for claim C2: a completed job is left unchanged by retry. -/
theorem claim2_witness :
    (retryRoute
      { id := "s1", clerk_user_id := "u1", status := "completed",
        error_message := none, task_id := some "t1", clip_id := none,
        audio_url := none, video_url := none, image_url := none,
        duration := none, completed_at := some "T0" }
      "u1" (RetryFetch.notReady "wait") "T").song =
      { id := "s1", clerk_user_id := "u1", status := "completed",
        error_message := none, task_id := some "t1", clip_id := none,
        audio_url := none, video_url := none, image_url := none,
        duration := none, completed_at := some "T0" } :=
  (claim2_prop
    { id := "s1", clerk_user_id := "u1", status := "completed",
      error_message := none, task_id := some "t1", clip_id := none,
      audio_url := none, video_url := none, image_url := none,
      duration := none, completed_at := some "T0" }
    "u1" (RetryFetch.notReady "wait") "T").1 rfl

/-- Counterexample for claim C2 as stated: the guard only rejects
completed jobs, so the retry route moves a terminal failed job (with a
task id, owned by the caller) back to the non-terminal generating status
when the external job reports not-ready. -/
theorem claim2_counterexample :
    ({ id := "s1", clerk_user_id := "u1", status := "failed",
       error_message := some "Song generation failed on Suno API",
       task_id := some "t1", clip_id := none, audio_url := none,
       video_url := none, image_url := none, duration := none,
       completed_at := none } : Song).status = "failed" ∧
    (retryRoute
      { id := "s1", clerk_user_id := "u1", status := "failed",
        error_message := some "Song generation failed on Suno API",
        task_id := some "t1", clip_id := none, audio_url := none,
        video_url := none, image_url := none, duration := none,
        completed_at := none }
      "u1" (RetryFetch.notReady "wait") "T").song.status = "generating" := by
  constructor
  · rfl
  · decide

/-- Claim C3 (corrected): findSimilarLyrics never throws (it is total in
every failure oracle) and always returns a non-empty list; the list has
at most matchCount entries in the three database tiers, but the
hard-coded tier returns its three fixed entries regardless of
matchCount, so the bound is max matchCount 3. -/
theorem claim3_prop (q : String) (n : Nat) (th : ℚ)
    (corpus : List CorpusRow) (o : RetrievalOracles) :
    findSimilarLyrics q n th corpus o ≠ [] ∧
    (findSimilarLyrics q n th corpus o).length ≤ max n 3 := by
  have hn : n ≤ max n 3 := le_max_left n 3
  have pickSpec : ∀ (t : List CorpusRow) (next : List RefRow),
      t.length ≤ n → next ≠ [] → next.length ≤ max n 3 →
      pickTier t next ≠ [] ∧ (pickTier t next).length ≤ max n 3 := by
    intro t next ht hne hlen
    unfold pickTier
    split
    case isTrue hpos =>
      constructor
      · simp only [ne_eq, List.map_eq_nil_iff]
        intro hnil
        rw [hnil] at hpos
        simp at hpos
      · rw [List.length_map]
        exact le_trans ht hn
    case isFalse hpos => exact ⟨hne, hlen⟩
  have tierBound : ∀ (c : Bool) (l : List CorpusRow),
      l.length ≤ n → (if c = true then l else []).length ≤ n := by
    intro c l hl
    split
    · exact hl
    · simp
  have hmax3 : (3 : Nat) ≤ max n 3 := le_max_right n 3
  unfold findSimilarLyrics
  split
  · constructor
    · simp [catchFallback]
    · simp only [catchFallback, List.length_cons, List.length_nil]
      omega
  · have hhard1 : hardcodedFallback ≠ [] := by simp [hardcodedFallback]
    have hhard2 : hardcodedFallback.length ≤ max n 3 := by
      simp only [hardcodedFallback, List.length_cons, List.length_nil]
      omega
    have hl1 : (matchLyricsRpc corpus o.sim th n).length ≤ n :=
      List.length_take_le _ _
    have hl2 : (keywordTier corpus (extractKeywords q) n).length ≤ n :=
      List.length_take_le _ _
    have hl3 : (corpus.take n).length ≤ n := List.length_take_le _ _
    have h3t := pickSpec (if !o.randomError then corpus.take n else [])
      hardcodedFallback (tierBound (!o.randomError) (corpus.take n) hl3)
      hhard1 hhard2
    have h2t := pickSpec
      (if (extractKeywords q).length > 0 && !o.textError then
        keywordTier corpus (extractKeywords q) n else []) _
      (tierBound _ (keywordTier corpus (extractKeywords q) n) hl2) h3t.1 h3t.2
    exact pickSpec
      (if o.embedOk && !o.rpcError then matchLyricsRpc corpus o.sim th n else [])
      _ (tierBound _ (matchLyricsRpc corpus o.sim th n) hl1) h2t.1 h2t.2

/-- Witness for claim C3: the amended bound holds at a concrete call. -/
theorem claim3_witness :
    findSimilarLyrics "love" 1 0 []
      { embedOk := true, sim := fun _ => 0, rpcError := false,
        textError := false, randomError := false, outerThrow := false }
      ≠ [] ∧
    (findSimilarLyrics "love" 1 0 []
      { embedOk := true, sim := fun _ => 0, rpcError := false,
        textError := false, randomError := false, outerThrow := false }).length
      ≤ max 1 3 :=
  claim3_prop "love" 1 0 []
    { embedOk := true, sim := fun _ => 0, rpcError := false,
      textError := false, randomError := false, outerThrow := false }

/-- Counterexample for claim C3 as stated: with an empty corpus and a
requested count of one, the hard-coded tier returns three entries, more
than the requested count. -/
theorem claim3_counterexample :
    (findSimilarLyrics "love" 1 0 []
      { embedOk := true, sim := fun _ => 0, rpcError := false,
        textError := false, randomError := false, outerThrow := false }).length
      = 3 ∧
    ¬ ((findSimilarLyrics "love" 1 0 []
      { embedOk := true, sim := fun _ => 0, rpcError := false,
        textError := false, randomError := false, outerThrow := false }).length
      ≤ 1) := by
  constructor
  · decide
  · decide

/-- Claim C6 (corrected): an entry whose name contains a surviving
keyword of the theme always satisfies the keyword-tier match predicate,
and is returned whenever no more than the limit many rows match; the
limit can otherwise cut it off. -/
theorem claim6_prop (theme : String) (corpus : List CorpusRow) (n : Nat)
    (r : CorpusRow) (w : String)
    (hw : w ∈ extractKeywords theme)
    (hname : ilike r.song_name w = true)
    (hr : r ∈ corpus)
    (hfew : (corpus.filter (rowMatchesKeywords (extractKeywords theme))).length
      ≤ n) :
    rowMatchesKeywords (extractKeywords theme) r = true ∧
    r ∈ keywordTier corpus (extractKeywords theme) n := by
  have hmatch : rowMatchesKeywords (extractKeywords theme) r = true := by
    simp only [rowMatchesKeywords, List.any_eq_true]
    exact ⟨w, hw, by simp [hname]⟩
  refine ⟨hmatch, ?_⟩
  unfold keywordTier
  rw [List.take_of_length_le hfew]
  exact List.mem_filter.mpr ⟨hr, hmatch⟩

/-- Witness for claim C6: a matching entry is returned when it is the
only match. -/
theorem claim6_witness :
    rowMatchesKeywords (extractKeywords "love story")
      { song_name := "Love Story B", lyrics_text := "bbb" } = true ∧
    ({ song_name := "Love Story B", lyrics_text := "bbb" } : CorpusRow) ∈
      keywordTier [{ song_name := "Love Story B", lyrics_text := "bbb" }]
        (extractKeywords "love story") 1 :=
  claim6_prop "love story" [{ song_name := "Love Story B", lyrics_text := "bbb" }]
    1 { song_name := "Love Story B", lyrics_text := "bbb" } "story"
    (by decide) (by decide) (by decide) (by decide)

/-- Counterexample for claim C6 as stated: with a limit of one and two
matching rows, the entry whose name contains the surviving keyword
story verbatim is cut off by the limit and is not in the returned
result set. -/
theorem claim6_counterexample :
    "story" ∈ extractKeywords "love story" ∧
    ilike "Love Story B" "story" = true ∧
    ({ song_name := "Love Story B", lyrics_text := "bbb" } : CorpusRow) ∈
      ([{ song_name := "Love Song A", lyrics_text := "aaa" },
        { song_name := "Love Story B", lyrics_text := "bbb" }] : List CorpusRow) ∧
    ({ song_name := "Love Story B", lyrics_text := "bbb" } : CorpusRow) ∉
      keywordTier
        [{ song_name := "Love Song A", lyrics_text := "aaa" },
         { song_name := "Love Story B", lyrics_text := "bbb" }]
        (extractKeywords "love story") 1 := by
  refine ⟨?_, ?_, ?_, ?_⟩ <;> decide

/-- Claim C9 (corrected): every stored corpus text is non-empty (at least
ten characters), and when the raw text carries the Python-list wrapping
and parses, the stored text is built from exactly the elements that are
neither the literal Lyrics marker nor all-digit index entries.  Raw
texts without the wrapping (or that fail to parse) are stored verbatim,
artifacts included. -/
theorem claim9_prop (t raw : String) (parsed : Option (List String))
    (nm l : String)
    (h : ingestSong t raw parsed = some (nm, l)) :
    10 ≤ l.length ∧ (l == "") = false ∧
    (∀ arr, strHasPrefix raw listOpen = true → strHasSuffix raw listClose = true →
      parsed = some arr →
      l = cleanListLyrics arr ∧
      ∀ x ∈ arr.filter (fun li => li != "Lyrics" && !(isAllDigits li)),
        x ≠ "Lyrics" ∧ isAllDigits x = false) := by
  unfold ingestSong at h
  split at h
  · exact absurd h (by simp)
  · dsimp only at h
    split at h
    · exact absurd h (by simp)
    · next h1 =>
      have hx : t = nm ∧ ingestClean raw parsed = l := by
        simpa using h
      have hl : l = ingestClean raw parsed := hx.2.symm
      simp only [Bool.or_eq_true, not_or, beq_iff_eq, decide_eq_true_eq] at h1
      obtain ⟨hne, hlen⟩ := h1
      refine ⟨?_, ?_, ?_⟩
      · rw [hl]
        omega
      · rw [hl]
        exact beq_eq_false_iff_ne.mpr hne
      · intro arr hpre hsuf hparr
        have hclean : ingestClean raw parsed = cleanListLyrics arr := by
          unfold ingestClean
          rw [hpre, hsuf, hparr]
          rfl
        refine ⟨hl.trans hclean, ?_⟩
        intro x hx2
        rw [List.mem_filter] at hx2
        obtain ⟨_, hpx⟩ := hx2
        rw [Bool.and_eq_true] at hpx
        constructor
        · have := hpx.1
          simpa using this
        · have := hpx.2
          simpa using this

/-- Witness for claim C9: a stored plain-text row satisfies the length
and non-emptiness bounds. -/
theorem claim9_witness :
    10 ≤ ("some plain lyric line" : String).length ∧
    (("some plain lyric line" : String) == "") = false :=
  have h := claim9_prop "Song" "some plain lyric line" none
    "Song" "some plain lyric line" (by decide)
  ⟨h.1, h.2.1⟩

/-- Counterexample for claim C9 as stated: a raw text without the
Python-list wrapping is stored verbatim, with its literal Lyrics marker
line and its all-digit index line intact. -/
theorem claim9_counterexample :
    ingestSong "Song" "Lyrics\n123\nsome plain lyric line" none
      = some ("Song", "Lyrics\n123\nsome plain lyric line") ∧
    "Lyrics" ∈ splitLines "Lyrics\n123\nsome plain lyric line" ∧
    (splitLines "Lyrics\n123\nsome plain lyric line").any isAllDigits
      = true := by
  refine ⟨?_, ?_, ?_⟩ <;> decide

/-! ## Occurrence calculus for the cleanup pass

A case-insensitive occurrence of a (lower-cased) literal q in s is a
three-way decomposition of s whose middle part lower-cases to q.  All
absence and survival arguments about the cleanup pipeline are carried
out on such decompositions. -/

/-- A case-insensitive occurrence of the lower-cased literal q in s. -/
def OccCI (q s : List Char) : Prop :=
  ∃ u a v, s = u ++ a ++ v ∧ lowerL a = q

/-- lowerL distributes over concatenation. -/
lemma lowerL_append (a b : List Char) :
    lowerL (a ++ b) = lowerL a ++ lowerL b := List.map_append _ _ _

/-- A boolean lower-cased prefix test is a head occurrence. -/
lemma isPrefixOf_lowerL_iff (p s : List Char) :
    p.isPrefixOf (lowerL s) = true ↔ ∃ a v, s = a ++ v ∧ lowerL a = p := by
  constructor
  · intro h
    rw [List.isPrefixOf_iff_prefix] at h
    have hlen : p.length ≤ s.length := by
      have := h.length_le
      simpa [lowerL] using this
    refine ⟨s.take p.length, s.drop p.length, (List.take_append_drop _ _).symm, ?_⟩
    have hmap : lowerL (s.take p.length) = (lowerL s).take p.length := by
      simp [lowerL, List.map_take]
    rw [hmap]
    exact (List.prefix_iff_eq_take.mp h).symm
  · rintro ⟨a, v, rfl, rfl⟩
    rw [List.isPrefixOf_iff_prefix, lowerL_append]
    exact List.prefix_append _ _

/-- Occurrences in a cons split into a head occurrence and a tail
occurrence. -/
lemma occCI_cons (q : List Char) (c : Char) (s : List Char) :
    OccCI q (c :: s) ↔
      (∃ a v, c :: s = a ++ v ∧ lowerL a = q) ∨ OccCI q s := by
  constructor
  · rintro ⟨u, a, v, hu, hl⟩
    rcases u with _ | ⟨c2, u2⟩
    · exact Or.inl ⟨a, v, by simpa using hu, hl⟩
    · right
      refine ⟨u2, a, v, ?_, hl⟩
      have h2 : c = c2 ∧ s = u2 ++ (a ++ v) := by simpa using hu
      simpa using h2.2
  · rintro (⟨a, v, hu, hl⟩ | ⟨u, a, v, hu, hl⟩)
    · exact ⟨[], a, v, by simpa using hu, hl⟩
    · exact ⟨c :: u, a, v, by simp [hu], hl⟩

/-- findSubAux finds nothing exactly when the pattern has no
case-insensitive occurrence. -/
lemma findSubAux_eq_none_iff (pat : List Char) :
    ∀ s, findSubAux pat s = none ↔ ¬ OccCI (lowerL pat) s := by
  intro s
  induction s with
  | nil =>
    constructor
    · intro h0
      rintro ⟨u, a, v, hu, hl⟩
      have hnil := hu.symm
      rw [List.append_assoc, List.append_eq_nil] at hnil
      have ha : a = [] := (List.append_eq_nil.mp hnil.2).1
      subst ha
      have hpnil : pat = [] := by
        have : lowerL pat = [] := hl.symm
        simpa [lowerL] using this
      subst hpnil
      simp [findSubAux] at h0
    · intro hno
      unfold findSubAux
      split
      case isTrue hemp =>
        exfalso
        apply hno
        have hpnil : pat = [] := by simpa using hemp
        exact ⟨[], [], [], by simp, by simp [hpnil, lowerL]⟩
      case isFalse hemp => rfl
  | cons c rest ih =>
    by_cases h : prefixAtCI pat (c :: rest) = true
    · simp only [findSubAux, h, if_true]
      constructor
      · intro habs
        exact absurd habs (by simp)
      · intro hno
        exfalso
        apply hno
        rw [prefixAtCI, isPrefixOf_lowerL_iff] at h
        obtain ⟨a, v, hu, hl⟩ := h
        exact ⟨[], a, v, by simpa using hu, hl⟩
    · rw [findSubAux, if_neg h]
      rw [occCI_cons]
      have hhead : ¬ (∃ a v, c :: rest = a ++ v ∧ lowerL a = lowerL pat) := by
        intro hex
        apply h
        rw [prefixAtCI, isPrefixOf_lowerL_iff]
        exact hex
      constructor
      · intro hmap
        have hrest : findSubAux pat rest = none := by
          cases hfr : findSubAux pat rest with
          | none => rfl
          | some i =>
            rw [hfr] at hmap
            simp at hmap
        rintro (hex | hocc)
        · exact hhead hex
        · exact (ih.mp hrest) hocc
      · intro hno
        have hnr : ¬ OccCI (lowerL pat) rest := fun hocc => hno (Or.inr hocc)
        rw [← ih] at hnr
        simp [hnr]

/-- The marker test as a head-occurrence decomposition. -/
lemma markerAt_iff (s : List Char) :
    markerAt s = true ↔ ∃ m ∈ markers, ∃ a v, s = a ++ v ∧ lowerL a = m := by
  unfold markerAt
  rw [List.any_eq_true]
  constructor
  · rintro ⟨m, hm, hp⟩
    exact ⟨m, hm, (isPrefixOf_lowerL_iff m s).mp hp⟩
  · rintro ⟨m, hm, hex⟩
    exact ⟨m, hm, (isPrefixOf_lowerL_iff m s).mpr hex⟩

/-- No recognized marker occurs anywhere in s. -/
def MFree (s : List Char) : Prop := ∀ m ∈ markers, ¬ OccCI m s

/-- Some recognized marker opens at the head of s. -/
def MarkerPre (s : List Char) : Prop :=
  ∃ m ∈ markers, ∃ a v, s = a ++ v ∧ lowerL a = m

/-- Every recognized marker is a non-empty word. -/
lemma markers_ne_nil : ∀ m ∈ markers, m ≠ [] := by decide

/-- An occurrence extends along a right append. -/
lemma occCI_mono_append (q t w : List Char) (h : OccCI q t) :
    OccCI q (t ++ w) := by
  obtain ⟨u, a, v, rfl, hl⟩ := h
  exact ⟨u, a, v ++ w, by simp, hl⟩

/-- An occurrence extends along both sides of an infix decomposition. -/
lemma occCI_mono_infix (q u t w : List Char) (h : OccCI q t) :
    OccCI q (u ++ t ++ w) := by
  obtain ⟨u2, a, v2, rfl, hl⟩ := h
  exact ⟨u ++ u2, a, v2 ++ w, by simp, hl⟩

/-- Absence of occurrences transfers to prefixes. -/
lemma not_occCI_of_pfx (q s t : List Char) (h : ¬ OccCI q s)
    (hp : t <+: s) : ¬ OccCI q t := by
  intro hocc
  obtain ⟨w, rfl⟩ := hp
  exact h (occCI_mono_append q t w hocc)

/-- Absence of occurrences transfers to infixes. -/
lemma not_occCI_of_infix (q u t w s : List Char) (h : ¬ OccCI q s)
    (hs : s = u ++ t ++ w) : ¬ OccCI q t := by
  intro hocc
  apply h
  rw [hs]
  exact occCI_mono_infix q u t w hocc

/-- Marker-freeness transfers to prefixes. -/
lemma mfree_of_pfx (s t : List Char) (h : MFree s) (hp : t <+: s) :
    MFree t := fun m hm => not_occCI_of_pfx m s t (h m hm) hp

/-- The empty list holds no occurrence of a non-empty literal. -/
lemma not_occCI_nil (q : List Char) (hq : q ≠ []) : ¬ OccCI q [] := by
  rintro ⟨u, a, v, hu, hl⟩
  have hnil := hu.symm
  rw [List.append_assoc, List.append_eq_nil] at hnil
  have ha : a = [] := (List.append_eq_nil.mp hnil.2).1
  subst ha
  exact hq hl.symm

/-- Lower casing preserves non-emptiness. -/
lemma lowerL_ne_nil (pat : List Char) (h : pat ≠ []) : lowerL pat ≠ [] := by
  simpa [lowerL] using h

/-- findMarker finds nothing exactly when s is marker-free. -/
lemma findMarker_eq_none_iff : ∀ s, findMarker s = none ↔ MFree s := by
  intro s
  induction s with
  | nil =>
    simp only [findMarker, true_iff]
    intro m hm
    exact not_occCI_nil m (markers_ne_nil m hm)
  | cons c rest ih =>
    by_cases h : markerAt (c :: rest) = true
    · simp only [findMarker, h, if_true]
      constructor
      · intro habs
        exact absurd habs (by simp)
      · intro hfree
        exfalso
        obtain ⟨m, hm, a, v, hu, hl⟩ := (markerAt_iff _).mp h
        exact hfree m hm ⟨[], a, v, by simpa using hu, hl⟩
    · rw [findMarker, if_neg h]
      have hmap : ((findMarker rest).map (fun i => i + 1) = none)
          ↔ findMarker rest = none := by
        cases findMarker rest <;> simp
      rw [hmap, ih]
      constructor
      · intro hfree m hm hocc
        rw [occCI_cons] at hocc
        rcases hocc with hex | hocc
        · exact h ((markerAt_iff _).mpr ⟨m, hm, hex⟩)
        · exact hfree m hm hocc
      · intro hfree m hm hocc
        exact hfree m hm ((occCI_cons m c rest).mpr (Or.inr hocc))

/-- findMarker yields a position where a marker opens. -/
lemma findMarker_some_markerAt :
    ∀ (s : List Char) (i : Nat), findMarker s = some i →
      markerAt (s.drop i) = true := by
  intro s
  induction s with
  | nil =>
    intro i h
    rw [show findMarker [] = none from rfl] at h
    exact Option.noConfusion h
  | cons c rest ih =>
    intro i h
    by_cases hm : markerAt (c :: rest) = true
    · simp only [findMarker, hm, if_true, Option.some_inj] at h
      subst h
      simpa using hm
    · rw [findMarker, if_neg hm] at h
      cases hfr : findMarker rest with
      | none =>
        rw [hfr] at h
        simp at h
      | some j =>
        rw [hfr] at h
        simp at h
        rw [← h]
        simpa using ih j hfr

/-- A head marker makes findMarker return position zero. -/
lemma findMarker_of_markerPre (s : List Char) (h : MarkerPre s) :
    findMarker s = some 0 := by
  obtain ⟨m, hm, a, v, hu, hl⟩ := h
  have hane : a ≠ [] := by
    intro ha
    subst ha
    exact markers_ne_nil m hm hl.symm
  have hne : s ≠ [] := by
    rw [hu]
    intro hcontra
    rw [List.append_eq_nil] at hcontra
    exact hane hcontra.1
  obtain ⟨c, rest, rfl⟩ := List.exists_cons_of_ne_nil hne
  rw [findMarker, if_pos ((markerAt_iff _).mpr ⟨m, hm, a, v, hu, hl⟩)]

/-- The substring test as an exact-occurrence decomposition. -/
lemma containsSub_iff (s pat : List Char) :
    containsSub s pat = true ↔ ∃ u v, s = u ++ pat ++ v := by
  unfold containsSub
  rw [List.any_eq_true]
  constructor
  · rintro ⟨i, _, hp⟩
    rw [List.isPrefixOf_iff_prefix] at hp
    obtain ⟨v, hv⟩ := hp
    refine ⟨s.take i, v, ?_⟩
    rw [List.append_assoc, hv, List.take_append_drop]
  · rintro ⟨u, v, rfl⟩
    refine ⟨u.length, ?_, ?_⟩
    · rw [List.mem_range]
      rw [List.append_assoc, List.length_append]
      omega
    · rw [List.append_assoc, List.drop_left, List.isPrefixOf_iff_prefix]
      exact List.prefix_append _ _

/-- removeTrail only keeps a prefix of its input. -/
lemma removeTrail_pfx (pat : List Char) :
    ∀ s, removeTrail pat s <+: s := by
  intro s
  induction s with
  | nil => simp [removeTrail]
  | cons c rest ih =>
    rw [removeTrail]
    split
    · exact List.nil_prefix
    · exact List.cons_prefix_cons.mpr ⟨rfl, ih⟩

/-- After removeTrail, the removed literal no longer occurs. -/
lemma removeTrail_not_occ (pat : List Char) (hp : pat ≠ []) :
    ∀ s, ¬ OccCI (lowerL pat) (removeTrail pat s) := by
  intro s
  induction s with
  | nil =>
    rw [removeTrail]
    exact not_occCI_nil _ (lowerL_ne_nil pat hp)
  | cons c rest ih =>
    rw [removeTrail]
    split
    · exact not_occCI_nil _ (lowerL_ne_nil pat hp)
    · next h =>
      intro hocc
      rw [occCI_cons] at hocc
      rcases hocc with ⟨a, v, hu, hl⟩ | hocc
      · apply h
        rw [prefixAtCI, isPrefixOf_lowerL_iff]
        have haP : a <+: c :: removeTrail pat rest := ⟨v, hu.symm⟩
        have hR : c :: removeTrail pat rest <+: c :: rest :=
          List.cons_prefix_cons.mpr ⟨rfl, removeTrail_pfx pat rest⟩
        obtain ⟨v2, hv2⟩ := haP.trans hR
        exact ⟨a, v2, hv2.symm, hl⟩
      · exact ih hocc

/-- The fold of removals keeps a prefix of its input. -/
lemma foldlRemove_pfx : ∀ (ps : List (List Char)) (s : List Char),
    List.foldl (fun acc p => removeTrail p acc) s ps <+: s := by
  intro ps
  induction ps with
  | nil =>
    intro s
    simp
  | cons p ps ih =>
    intro s
    rw [List.foldl_cons]
    exact (ih _).trans (removeTrail_pfx p s)

/-- After the fold of removals, none of the processed non-empty literals
occurs. -/
lemma foldlRemove_not_occ : ∀ (ps : List (List Char)) (s p : List Char),
    p ∈ ps → p ≠ [] →
    ¬ OccCI (lowerL p) (List.foldl (fun acc q => removeTrail q acc) s ps) := by
  intro ps
  induction ps with
  | nil =>
    intro s p hp
    simp at hp
  | cons q ps ih =>
    intro s p hp hne
    rw [List.foldl_cons]
    rcases List.mem_cons.mp hp with rfl | hp2
    · exact not_occCI_of_pfx _ _ _ (removeTrail_not_occ p hne s)
        (foldlRemove_pfx ps _)
    · exact ih _ p hp2 hne

/-- Lower casing fixes whitespace characters. -/
lemma toLower_of_isWhitespace (c : Char) (h : c.isWhitespace = true) :
    c.toLower = c := by
  simp [Char.isWhitespace] at h
  rcases h with (((h | h) | h) | h) <;> subst h <;> decide

/-- A character whose lower case is not whitespace is not whitespace. -/
lemma not_ws_of_lower (c d : Char) (hld : c.toLower = d)
    (hd : d.isWhitespace = false) : c.isWhitespace = false := by
  by_cases hc : c.isWhitespace = true
  · rw [toLower_of_isWhitespace c hc] at hld
    rw [hld] at hc
    rw [hc] at hd
    exact absurd hd (by simp)
  · simpa using hc

/-- A character whose lower case is not a star is not a star. -/
lemma ne_star_of_lower (c d : Char) (hld : c.toLower = d) (hd : d ≠ '*') :
    c ≠ '*' := by
  intro hc
  subst hc
  apply hd
  rw [← hld]
  decide

/-- Characters of a word lower-case into its lower-cased image. -/
lemma mem_lower_chars (a m : List Char) (hl : lowerL a = m) (c : Char)
    (hc : c ∈ a) : c.toLower ∈ m := by
  rw [← hl]
  exact List.mem_map_of_mem _ hc

/-- No recognized marker contains a star. -/
lemma markers_no_star : ∀ m ∈ markers, ∀ c ∈ m, c ≠ '*' := by decide

/-- No recognized marker contains whitespace. -/
lemma markers_no_ws : ∀ m ∈ markers, ∀ c ∈ m, c.isWhitespace = false := by
  decide

/-- A non-star head admits no bold match. -/
lemma boldMatch_none_of_head (c : Char) (l : List Char)
    (hc : (c == '*') = false) : boldMatch (c :: l) = none := by
  cases l with
  | nil => rfl
  | cons c2 l2 => simp [boldMatch, hc]

/-- A non-star head admits no italic match. -/
lemma italicMatch_none_of_head (c : Char) (l : List Char)
    (hc : (c == '*') = false) : italicMatch (c :: l) = none := by
  simp [italicMatch, hc]

/-- The bold scanner copies a star-free prefix unchanged. -/
lemma replaceBoldGo_copy : ∀ (a : List Char) (f : Nat) (t : List Char),
    (∀ c ∈ a, c ≠ '*') →
    ∃ f2, replaceBoldGo f (a ++ t) = a ++ replaceBoldGo f2 t := by
  intro a
  induction a with
  | nil =>
    intro f t _
    exact ⟨f, by simp⟩
  | cons c a2 ih =>
    intro f t hstar
    cases f with
    | zero =>
      refine ⟨0, ?_⟩
      simp [replaceBoldGo]
    | succ f1 =>
      have hc : (c == '*') = false :=
        beq_eq_false_iff_ne.mpr (hstar c (List.mem_cons_self c a2))
      have hbm : boldMatch (c :: (a2 ++ t)) = none :=
        boldMatch_none_of_head c _ hc
      obtain ⟨f2, hf2⟩ := ih f1 t (fun d hd => hstar d (List.mem_cons_of_mem c hd))
      exact ⟨f2, by simp [replaceBoldGo, hbm, hf2]⟩

/-- The italic scanner copies a star-free prefix unchanged. -/
lemma replaceItalicGo_copy : ∀ (a : List Char) (f : Nat) (t : List Char),
    (∀ c ∈ a, c ≠ '*') →
    ∃ f2, replaceItalicGo f (a ++ t) = a ++ replaceItalicGo f2 t := by
  intro a
  induction a with
  | nil =>
    intro f t _
    exact ⟨f, by simp⟩
  | cons c a2 ih =>
    intro f t hstar
    cases f with
    | zero =>
      refine ⟨0, ?_⟩
      simp [replaceItalicGo]
    | succ f1 =>
      have hc : (c == '*') = false :=
        beq_eq_false_iff_ne.mpr (hstar c (List.mem_cons_self c a2))
      have him : italicMatch (c :: (a2 ++ t)) = none :=
        italicMatch_none_of_head c _ hc
      obtain ⟨f2, hf2⟩ := ih f1 t (fun d hd => hstar d (List.mem_cons_of_mem c hd))
      exact ⟨f2, by simp [replaceItalicGo, him, hf2]⟩

/-- The characters of a marker-spelling word contain no star. -/
lemma markerWord_no_star (m a : List Char) (hm : m ∈ markers)
    (hl : lowerL a = m) : ∀ c ∈ a, c ≠ '*' := fun c hc =>
  ne_star_of_lower c c.toLower rfl
    (markers_no_star m hm c.toLower (mem_lower_chars a m hl c hc))

/-- The characters of a marker-spelling word contain no whitespace. -/
lemma markerWord_no_ws (m a : List Char) (hm : m ∈ markers)
    (hl : lowerL a = m) : ∀ c ∈ a, c.isWhitespace = false := fun c hc =>
  not_ws_of_lower c c.toLower rfl
    (markers_no_ws m hm c.toLower (mem_lower_chars a m hl c hc))

/-- Bold replacement keeps a head marker in place. -/
lemma markerPre_replaceBold (s : List Char) (h : MarkerPre s) :
    MarkerPre (replaceBold s) := by
  obtain ⟨m, hm, a, v, rfl, hl⟩ := h
  obtain ⟨f2, hf2⟩ :=
    replaceBoldGo_copy a (a ++ v).length v (markerWord_no_star m a hm hl)
  exact ⟨m, hm, a, replaceBoldGo f2 v, by rw [replaceBold, hf2], hl⟩

/-- Italic replacement keeps a head marker in place. -/
lemma markerPre_replaceItalic (s : List Char) (h : MarkerPre s) :
    MarkerPre (replaceItalic s) := by
  obtain ⟨m, hm, a, v, rfl, hl⟩ := h
  obtain ⟨f2, hf2⟩ :=
    replaceItalicGo_copy a (a ++ v).length v (markerWord_no_star m a hm hl)
  exact ⟨m, hm, a, replaceItalicGo f2 v, by rw [replaceItalic, hf2], hl⟩

/-- No recognized marker occurs inside a proper prefix of a recognized
marker (checked over the finite marker list). -/
lemma no_marker_in_proper_prefix :
    (markers.all (fun m => (List.range m.length).all (fun k =>
      markers.all (fun m2 => !(containsSub (m.take k) m2))))) = true := by
  decide

/-- A word lower-casing to a proper prefix of a marker is marker-free. -/
lemma properPrefix_mfree (m : List Char) (hm : m ∈ markers) (k : Nat)
    (hk : k < m.length) (w : List Char) (hw : lowerL w = m.take k) :
    MFree w := by
  intro m2 hm2 hocc
  obtain ⟨u, a, v, rfl, hl⟩ := hocc
  have hdec : m.take k = lowerL u ++ m2 ++ lowerL v := by
    rw [← hw]
    simp [lowerL, hl.symm]
  have hcs : containsSub (m.take k) m2 = true := by
    rw [containsSub_iff]
    exact ⟨lowerL u, lowerL v, hdec⟩
  have hfact := no_marker_in_proper_prefix
  rw [List.all_eq_true] at hfact
  have h1 := hfact m hm
  rw [List.all_eq_true] at h1
  have h2 := h1 k (List.mem_range.mpr hk)
  rw [List.all_eq_true] at h2
  have h3 := h2 m2 hm2
  rw [hcs] at h3
  exact absurd h3 (by simp)

/-- A head marker persists in any prefix at least as long as it, and a
shorter prefix is marker-free. -/
lemma markerPre_prefix_split (s t : List Char) (h : MarkerPre s)
    (hp : t <+: s) : MarkerPre t ∨ MFree t := by
  obtain ⟨m, hm, a, v, hs, hl⟩ := h
  have ht : t = s.take t.length := List.prefix_iff_eq_take.mp hp
  by_cases hk : a.length ≤ t.length
  · left
    rw [ht, hs, List.take_append_eq_append_take, List.take_of_length_le hk]
    exact ⟨m, hm, a, v.take (t.length - a.length), rfl, hl⟩
  · right
    push_neg at hk
    have hta : t = a.take t.length := by
      rw [ht, hs, List.take_append_eq_append_take]
      have hz : t.length - a.length = 0 := by omega
      rw [hz]
      simp
    have hla : a.length = m.length := by
      rw [← hl]
      simp [lowerL]
    refine properPrefix_mfree m hm t.length (by omega) t ?_
    rw [hta]
    have hmt : lowerL (a.take t.length) = (lowerL a).take t.length := by
      simp [lowerL, List.map_take]
    rw [hmt, hl]
    have hlen : (List.take t.length a).length = t.length := by
      rw [List.length_take]
      omega
    rw [hlen]

/-- The invariant carried through the truncating pipeline stages. -/
def INVm (s : List Char) : Prop := MarkerPre s ∨ MFree s

/-- The invariant transfers to prefixes. -/
lemma invm_of_pfx (s t : List Char) (h : INVm s) (hp : t <+: s) :
    INVm t := by
  rcases h with h | h
  · exact markerPre_prefix_split s t h hp
  · exact Or.inr (mfree_of_pfx s t h hp)

/-- dropWhile passes over an appended part once a failing element heads
the remainder. -/
lemma dropWhile_append_cons (p : Char → Bool) :
    ∀ (u : List Char) (c : Char) (w : List Char), p c = false →
      List.dropWhile p (u ++ c :: w) = List.dropWhile p u ++ c :: w := by
  intro u
  induction u with
  | nil =>
    intro c w hc
    simp [List.dropWhile_cons, hc]
  | cons x u2 ih =>
    intro c w hc
    by_cases hx : p x = true
    · simp only [List.cons_append, List.dropWhile_cons, hx, if_true]
      exact ih c w hc
    · have hx2 : p x = false := eq_false_of_ne_true hx
      simp [List.dropWhile_cons, hx2]

/-- Trimming around an occurrence whose word is non-blank keeps the
word, trimming only within the surrounding parts. -/
lemma trim_decomp (u a v : List Char) (ha : a ≠ [])
    (hws : ∀ c ∈ a, c.isWhitespace = false) :
    ∃ v2, trimChars (u ++ a ++ v)
      = List.dropWhile Char.isWhitespace u ++ a ++ v2 := by
  obtain ⟨ha1, a2, rfl⟩ := List.exists_cons_of_ne_nil ha
  have hcons : u ++ (ha1 :: a2) ++ v = u ++ ha1 :: (a2 ++ v) := by simp
  have hstep1 : List.dropWhile Char.isWhitespace (u ++ (ha1 :: a2) ++ v)
      = List.dropWhile Char.isWhitespace u ++ ha1 :: (a2 ++ v) := by
    rw [hcons]
    exact dropWhile_append_cons _ u ha1 (a2 ++ v)
      (hws ha1 (List.mem_cons_self _ _))
  set u2 := List.dropWhile Char.isWhitespace u with hu2
  have hrevne : (ha1 :: a2).reverse ≠ [] := by simp
  obtain ⟨la, a3, hrev⟩ := List.exists_cons_of_ne_nil hrevne
  have hla_mem : la ∈ ha1 :: a2 := by
    rw [← List.mem_reverse, hrev]
    exact List.mem_cons_self _ _
  have hstep2 : (u2 ++ ha1 :: (a2 ++ v)).reverse
      = v.reverse ++ la :: (a3 ++ u2.reverse) := by
    have h1 : u2 ++ ha1 :: (a2 ++ v) = (u2 ++ (ha1 :: a2)) ++ v := by simp
    rw [h1, List.reverse_append, List.reverse_append, hrev]
    simp
  have hstep3 : List.dropWhile Char.isWhitespace
      (v.reverse ++ la :: (a3 ++ u2.reverse))
      = List.dropWhile Char.isWhitespace v.reverse ++ la :: (a3 ++ u2.reverse) :=
    dropWhile_append_cons _ v.reverse la (a3 ++ u2.reverse) (hws la hla_mem)
  refine ⟨(List.dropWhile Char.isWhitespace v.reverse).reverse, ?_⟩
  unfold trimChars
  rw [hstep1, hstep2, hstep3]
  rw [List.reverse_append]
  have h2 : (la :: (a3 ++ u2.reverse)).reverse = u2 ++ (ha1 :: a2) := by
    have h3 : (la :: (a3 ++ u2.reverse)) = (la :: a3) ++ u2.reverse := by simp
    rw [h3, List.reverse_append, ← hrev]
    simp
  rw [h2]

/-- The trimmed text sits inside the original as an infix. -/
lemma trim_infix (s : List Char) :
    ∃ u w, s = u ++ trimChars s ++ w := by
  refine ⟨List.takeWhile Char.isWhitespace s,
    (List.takeWhile Char.isWhitespace
      (List.dropWhile Char.isWhitespace s).reverse).reverse, ?_⟩
  have h3 : (List.dropWhile Char.isWhitespace s).reverse
      = List.takeWhile Char.isWhitespace
          (List.dropWhile Char.isWhitespace s).reverse
        ++ List.dropWhile Char.isWhitespace
          (List.dropWhile Char.isWhitespace s).reverse :=
    (List.takeWhile_append_dropWhile _ _).symm
  have h4 := congrArg List.reverse h3
  rw [List.reverse_reverse, List.reverse_append] at h4
  unfold trimChars
  conv_lhs => rw [← List.takeWhile_append_dropWhile Char.isWhitespace s]
  rw [List.append_assoc]
  congr 1

/-- A head marker survives trimming. -/
lemma markerPre_trim (s : List Char) (h : MarkerPre s) :
    MarkerPre (trimChars s) := by
  obtain ⟨m, hm, a, v, rfl, hl⟩ := h
  have hane : a ≠ [] := by
    intro hcontra
    subst hcontra
    exact markers_ne_nil m hm hl.symm
  obtain ⟨v2, hv2⟩ := trim_decomp [] a v hane (markerWord_no_ws m a hm hl)
  simp only [List.nil_append, List.dropWhile_nil] at hv2
  have hac : trimChars (a ++ v) = a ++ v2 := by
    simpa using hv2
  exact ⟨m, hm, a, v2, hac, hl⟩

/-- Any occurrence of a non-blank word survives trimming. -/
lemma occCI_trim (m s : List Char) (hm_ne : m ≠ [])
    (hm_ws : ∀ c ∈ m, c.isWhitespace = false) (h : OccCI m s) :
    OccCI m (trimChars s) := by
  obtain ⟨u, a, v, rfl, hl⟩ := h
  have hane : a ≠ [] := by
    intro hcontra
    subst hcontra
    exact hm_ne hl.symm
  have haws : ∀ c ∈ a, c.isWhitespace = false := fun c hc =>
    not_ws_of_lower c c.toLower rfl (hm_ws c.toLower (mem_lower_chars a m hl c hc))
  obtain ⟨v2, hv2⟩ := trim_decomp u a v hane haws
  exact ⟨List.dropWhile Char.isWhitespace u, a, v2, hv2, hl⟩

/-- Marker-freeness survives trimming. -/
lemma mfree_trim (s : List Char) (h : MFree s) : MFree (trimChars s) := by
  intro m hm
  obtain ⟨u, w, hs⟩ := trim_infix s
  exact not_occCI_of_infix m u (trimChars s) w s (h m hm) hs

/-- The last-section truncation keeps a prefix of its input. -/
lemma lastSectionCut_pfx (s : List Char) : lastSectionCut s <+: s := by
  unfold lastSectionCut
  split
  · exact List.prefix_refl s
  · split
    · exact List.take_prefix _ _
    · exact List.prefix_refl s

/-- The invariant forces the no-preamble shape. -/
lemma noPreamble_of_invm (s : List Char) (h : INVm s) :
    noPreamble s = true := by
  rcases h with h | h
  · unfold noPreamble
    rw [findMarker_of_markerPre s h]
    rfl
  · unfold noPreamble
    rw [(findMarker_eq_none_iff s).mpr h]

/-- Every forbidden literal is a non-empty word. -/
lemma forbiddenPhrases_ne_nil : ∀ p ∈ forbiddenPhrases, p ≠ [] := by decide

/-- The removal fold keeps a prefix. -/
lemma applyRemovals_pfx (s : List Char) : applyRemovals s <+: s :=
  foldlRemove_pfx forbiddenPhrases s

/-- Claim C5 (corrected): the cleanup output never contains any of the
forbidden trailing phrases; and whenever the raw text already contains a
recognized section marker, the output has no leading preamble — its
first marker, if any, sits at the very start.  (When the raw text has no
marker, the bold and italic replacements can splice one together behind
a preamble, which is the counterexample.) -/
theorem claim5_prop (raw : List Char) :
    noForbidden (cleanLyricsResponse raw) = true ∧
    ((findMarker raw).isSome = true →
      noPreamble (cleanLyricsResponse raw) = true) := by
  have hout : cleanLyricsResponse raw
      = trimChars (lastSectionCut (applyRemovals (replaceItalic (replaceBold
          (match findMarker (trimChars raw) with
           | some i => (trimChars raw).drop i
           | none => trimChars raw))))) := rfl
  set c1 := (match findMarker (trimChars raw) with
    | some i => (trimChars raw).drop i
    | none => trimChars raw) with hc1def
  set c2 := replaceItalic (replaceBold c1) with hc2def
  set c3 := applyRemovals c2 with hc3def
  set c4 := lastSectionCut c3 with hc4def
  constructor
  · rw [hout]
    rw [noForbidden, List.all_eq_true]
    intro p hp
    rw [Option.isNone_iff_eq_none, findSubAux_eq_none_iff]
    have h3 : ¬ OccCI (lowerL p) c3 :=
      foldlRemove_not_occ forbiddenPhrases c2 p hp (forbiddenPhrases_ne_nil p hp)
    have h4 : ¬ OccCI (lowerL p) c4 :=
      not_occCI_of_pfx _ c3 c4 h3 (lastSectionCut_pfx c3)
    obtain ⟨u, w, hiw⟩ := trim_infix c4
    exact not_occCI_of_infix _ u (trimChars c4) w c4 h4 hiw
  · intro hsome
    rw [Option.isSome_iff_exists] at hsome
    obtain ⟨i, hi⟩ := hsome
    have hnotfree : ¬ MFree raw := by
      intro hfree
      rw [← findMarker_eq_none_iff] at hfree
      rw [hfree] at hi
      exact Option.noConfusion hi
    have hocc : ∃ m ∈ markers, OccCI m raw := by
      by_contra hno
      push_neg at hno
      exact hnotfree hno
    obtain ⟨m, hm, hoccm⟩ := hocc
    have hocc0 : OccCI m (trimChars raw) :=
      occCI_trim m raw (markers_ne_nil m hm) (markers_no_ws m hm) hoccm
    have hfm0 : findMarker (trimChars raw) ≠ none := by
      intro hnone
      exact (findMarker_eq_none_iff (trimChars raw)).mp hnone m hm hocc0
    obtain ⟨i0, hfm⟩ := Option.ne_none_iff_exists.mp hfm0
    have hc1 : c1 = (trimChars raw).drop i0 := by
      rw [hc1def, ← hfm]
    have hpre1 : MarkerPre c1 := by
      rw [hc1]
      exact (markerAt_iff _).mp
        (findMarker_some_markerAt (trimChars raw) i0 hfm.symm)
    have hpre2 : MarkerPre c2 :=
      markerPre_replaceItalic _ (markerPre_replaceBold _ hpre1)
    have hinv3 : INVm c3 :=
      invm_of_pfx c2 c3 (Or.inl hpre2) (applyRemovals_pfx c2)
    have hinv4 : INVm c4 :=
      invm_of_pfx c3 c4 hinv3 (lastSectionCut_pfx c3)
    have hinvOut : INVm (trimChars c4) := by
      rcases hinv4 with h | h
      · exact Or.inl (markerPre_trim c4 h)
      · exact Or.inr (mfree_trim c4 h)
    rw [hout]
    exact noPreamble_of_invm _ hinvOut

/-- Witness for claim C5: a raw text with a preamble, a marker and a
trailing forbidden phrase cleans to a preamble-free, phrase-free
output. -/
theorem claim5_witness :
    (findMarker ("Sure: [Verse]\nla\n\nNote: enjoy".toList)).isSome = true ∧
    noForbidden (cleanLyricsResponse ("Sure: [Verse]\nla\n\nNote: enjoy".toList))
      = true ∧
    noPreamble (cleanLyricsResponse ("Sure: [Verse]\nla\n\nNote: enjoy".toList))
      = true :=
  have h := claim5_prop ("Sure: [Verse]\nla\n\nNote: enjoy".toList)
  ⟨by decide, h.1, h.2 (by decide)⟩

/-- Counterexample for claim C5 as stated: the bold replacement runs
after the preamble cut, so star segments can splice a marker together
behind untouched preamble text — here the output keeps the preamble
while holding a recognized marker later. -/
theorem claim5_counterexample :
    noPreamble (cleanLyricsResponse
      ("Intro text here.\n[**b**Verse]\nla la".toList)) = false := by
  decide

end AmorSoft
